import Mathlib

/-!
Shallow embedding of scripts/validate-aap-config.py.

Python values decoded from YAML are modelled by `Value` (strings, integers,
booleans, None, lists, string-keyed mappings).  Python operations used by the
script (attribute access `.get`, the `in` operator, subscripting, iteration,
`len`, `str`, truthiness) are modelled as functions that return
`Except PyExn _` where the Python operation can raise.  The mutable state of
`AAPConfigValidator` (the finding lists and the defined/referenced name sets)
is the structure `VState`; Python sets are modelled as duplicate-free lists in
insertion order (`setAdd` is idempotent and checks hashability, since adding
an unhashable value raises TypeError in Python).  Each validator method is a
function `VState -> Value -> Except PyExn VState`, translated statement by
statement from the source.
-/

/-- A Python value as produced by yaml.safe_load (floats, dates and non-string
mapping keys are outside the modelled universe). -/
inductive Value where
  | str : String → Value
  | int : Int → Value
  | bool : Bool → Value
  | null : Value
  | list : List Value → Value
  | dict : List (String × Value) → Value

/-- A Python exception kind raised by the operations the script uses. -/
inductive PyExn where
  | typeError : PyExn
  | attributeError : PyExn
  | keyError : PyExn

mutual

/-- Python structural equality on modelled values (the `==` used by `in` on
lists and by set membership; the bool/int cross-equality of Python is not
modelled, no claim exercises it). -/
def Value.beq : Value → Value → Bool
  | .str a, .str b => a == b
  | .int a, .int b => a == b
  | .bool a, .bool b => a == b
  | .null, .null => true
  | .list a, .list b => Value.beqList a b
  | .dict a, .dict b => Value.beqEntries a b
  | _, _ => false

/-- Elementwise `Value.beq` on lists. -/
def Value.beqList : List Value → List Value → Bool
  | [], [] => true
  | a :: as, b :: bs => Value.beq a b && Value.beqList as bs
  | _, _ => false

/-- Elementwise `Value.beq` on mapping entries. -/
def Value.beqEntries : List (String × Value) → List (String × Value) → Bool
  | [], [] => true
  | (k, a) :: as, (l, b) :: bs => k == l && Value.beq a b && Value.beqEntries as bs
  | _, _ => false

end

instance : BEq Value := ⟨Value.beq⟩

mutual

/-- Python repr() on modelled values (string escaping inside repr is
simplified to plain quotes; only nested elements of containers are rendered
with repr and no claim depends on their exact text). -/
def Value.pyRepr : Value → String
  | .str a => "'" ++ a ++ "'"
  | .int n => toString n
  | .bool b => if b then "True" else "False"
  | .null => "None"
  | .list vs => "[" ++ String.intercalate ", " (Value.reprList vs) ++ "]"
  | .dict kvs => "\x7b" ++ String.intercalate ", " (Value.reprEntries kvs) ++ "\x7d"

/-- repr of each element of a list value. -/
def Value.reprList : List Value → List String
  | [] => []
  | v :: vs => Value.pyRepr v :: Value.reprList vs

/-- repr of each key/value entry of a mapping value. -/
def Value.reprEntries : List (String × Value) → List String
  | [] => []
  | (k, v) :: kvs => ("'" ++ k ++ "': " ++ Value.pyRepr v) :: Value.reprEntries kvs

end

/-- Python str() on modelled values: the identity on strings, repr elsewhere
(str and repr agree on ints, bools, None, lists and dicts). -/
def Value.pyStr : Value → String
  | .str a => a
  | v => Value.pyRepr v

/-- Python truthiness of a modelled value. -/
def Value.truthy : Value → Bool
  | .str a => a ≠ ""
  | .int n => n ≠ 0
  | .bool b => b
  | .null => false
  | .list vs => !vs.isEmpty
  | .dict kvs => !kvs.isEmpty

/-- Whether a value is hashable in Python (lists and dicts are not; adding an
unhashable value to a set raises TypeError). -/
def Value.hashable : Value → Bool
  | .list _ => false
  | .dict _ => false
  | _ => true

/-- Python s.startswith(pre), over the character data. -/
def strStartsWith (s pre : String) : Bool :=
  pre.data.isPrefixOf s.data

/-- Whether pat occurs as a contiguous sublist of a character list. -/
def strContainsAux (pat : List Char) : List Char → Bool
  | [] => pat.isPrefixOf []
  | c :: rest => pat.isPrefixOf (c :: rest) || strContainsAux pat rest

/-- Python substring test `pat in s`. -/
def strContains (s pat : String) : Bool :=
  strContainsAux pat.data s.data

/-- Python d.get(k, default): attribute access on a non-dict raises
AttributeError. -/
def Value.pyGetD : Value → String → Value → Except PyExn Value
  | .dict kvs, k, d => .ok ((kvs.lookup k).getD d)
  | _, _, _ => .error .attributeError

/-- Python `k in v` for a string key k: key test on dicts, substring test on
strings, membership on lists, TypeError otherwise. -/
def Value.pyContains : Value → String → Except PyExn Bool
  | .dict kvs, k => .ok ((kvs.lookup k).isSome)
  | .str a, k => .ok (strContains a k)
  | .list vs, k => .ok (vs.contains (Value.str k))
  | _, _ => .error .typeError

/-- Python v[k] for a string key k: lookup on dicts (KeyError when absent),
TypeError otherwise. -/
def Value.pySubscript : Value → String → Except PyExn Value
  | .dict kvs, k =>
    match kvs.lookup k with
    | some v => .ok v
    | none => .error .keyError
  | _, _ => .error .typeError

/-- Python iteration `for x in v`: elements of a list, characters of a string,
keys of a dict, TypeError otherwise (in particular on None). -/
def Value.pyIterate : Value → Except PyExn (List Value)
  | .list vs => .ok vs
  | .str a => .ok (a.data.map (fun c => Value.str (String.mk [c])))
  | .dict kvs => .ok (kvs.map (fun kv => Value.str kv.1))
  | _ => .error .typeError

/-- Python len(v): TypeError on ints, bools and None. -/
def Value.pyLen : Value → Except PyExn Nat
  | .list vs => .ok vs.length
  | .str a => .ok a.length
  | .dict kvs => .ok kvs.length
  | _ => .error .typeError

/-- Sequencing of possibly-raising Python statements. -/
def ebind {α β : Type} (x : Except PyExn α) (f : α → Except PyExn β) : Except PyExn β :=
  match x with
  | .error e => .error e
  | .ok a => f a

/-- The mutable state of AAPConfigValidator: the finding lists and the
defined/referenced name sets, plus the selected environment. -/
structure VState where
  environment : Option String
  errors : List String
  warnings : List String
  info : List String
  defined_credentials : List Value
  defined_projects : List Value
  defined_inventories : List Value
  defined_ees : List Value
  defined_organizations : List Value
  defined_teams : List Value
  referenced_credentials : List Value
  referenced_projects : List Value
  referenced_inventories : List Value
  referenced_ees : List Value

/-- AAPConfigValidator.__init__: every list and set starts empty. -/
def VState.init (env : Option String) : VState :=
  { environment := env, errors := [], warnings := [], info := [],
    defined_credentials := [], defined_projects := [], defined_inventories := [],
    defined_ees := [], defined_organizations := [], defined_teams := [],
    referenced_credentials := [], referenced_projects := [],
    referenced_inventories := [], referenced_ees := [] }

/-- self.errors.append(m). -/
def VState.addError (s : VState) (m : String) : VState :=
  { s with errors := s.errors ++ [m] }

/-- self.warnings.append(m). -/
def VState.addWarning (s : VState) (m : String) : VState :=
  { s with warnings := s.warnings ++ [m] }

/-- self.info.append(m). -/
def VState.addInfo (s : VState) (m : String) : VState :=
  { s with info := s.info ++ [m] }

/-- Python set.add on a set modelled as a duplicate-free list in insertion
order: idempotent, and raises TypeError on unhashable values. -/
def setAdd (l : List Value) (x : Value) : Except PyExn (List Value) :=
  if x.hashable then .ok (if l.contains x then l else l ++ [x]) else .error .typeError

/-- Runs a per-record body over each decoded record in order, threading the
state, as the per-kind `for` loops do. -/
def foldRecords (f : VState → Value → Except PyExn VState) : VState → List Value → Except PyExn VState
  | s, [] => .ok s
  | s, v :: vs => ebind (f s v) fun s2 => foldRecords f s2 vs

/-- The sensitive credential input field names, in source order. -/
def sensitive_fields : List String := ["password", "secret", "token", "private_key"]

/-- The secret-lookup expression marker checked by value.startswith. -/
def lookupMarker : String := "\x7b\x7b "

/-- The unencrypted-secret Error message for a credential name and field. -/
def unencMsg (nm f : String) : String :=
  "Credential '" ++ nm ++ "' has unencrypted '" ++ f ++ "' - use ansible-vault or lookup"

/-- The inner loop of validate_credentials over sensitive_fields: for each
field present in inputs, flag the stringified value unless it starts with
the lookup marker or with the vault marker. -/
def checkSensitive (name inputs : Value) : VState → List String → Except PyExn VState
  | s, [] => .ok s
  | s, field :: rest =>
    ebind (inputs.pyContains field) fun present =>
    if present then
      ebind (inputs.pySubscript field) fun v =>
      let value := v.pyStr
      let s := if !(strStartsWith value lookupMarker) && !(strStartsWith value "!vault") then
          s.addError (unencMsg name.pyStr field)
        else s
      checkSensitive name inputs s rest
    else checkSensitive name inputs s rest

/-- The body of the validate_organizations loop for one record. -/
def validateOrgRecord (s : VState) (org : Value) : Except PyExn VState :=
  ebind (org.pyGetD "name" (.str "unnamed")) fun name =>
  ebind (setAdd s.defined_organizations name) fun d =>
  let s := { s with defined_organizations := d }
  ebind (org.pyContains "name") fun hasName =>
  let s := if hasName then s else s.addError "Organization missing 'name' field"
  ebind (org.pyContains "description") fun hasDesc =>
  let s := if hasDesc then s else
    s.addWarning ("Organization '" ++ name.pyStr ++ "' missing description")
  .ok s

/-- AAPConfigValidator.validate_organizations. -/
def validate_organizations (s : VState) (config : Value) : Except PyExn VState :=
  ebind (config.pyGetD "controller_organizations" (.list [])) fun orgs =>
  if !orgs.truthy then .ok (s.addWarning "No organizations defined")
  else
    ebind orgs.pyIterate fun lst =>
    ebind (foldRecords validateOrgRecord s lst) fun s =>
    ebind orgs.pyLen fun n =>
    .ok (s.addInfo ("Found " ++ toString n ++ " organization(s)"))

/-- The body of the validate_teams loop for one record. -/
def validateTeamRecord (s : VState) (team : Value) : Except PyExn VState :=
  ebind (team.pyGetD "name" (.str "unnamed")) fun name =>
  ebind (setAdd s.defined_teams name) fun d =>
  let s := { s with defined_teams := d }
  ebind (team.pyContains "name") fun hasName =>
  let s := if hasName then s else s.addError "Team missing 'name' field"
  ebind (team.pyContains "organization") fun hasOrg =>
  let s := if hasOrg then s else
    s.addError ("Team '" ++ name.pyStr ++ "' missing organization reference")
  ebind (team.pyContains "description") fun hasDesc =>
  let s := if hasDesc then s else
    s.addWarning ("Team '" ++ name.pyStr ++ "' missing description")
  .ok s

/-- AAPConfigValidator.validate_teams. -/
def validate_teams (s : VState) (config : Value) : Except PyExn VState :=
  ebind (config.pyGetD "controller_teams" (.list [])) fun teams =>
  if !teams.truthy then .ok (s.addWarning "No teams defined - consider RBAC best practices")
  else
    ebind teams.pyIterate fun lst =>
    ebind (foldRecords validateTeamRecord s lst) fun s =>
    ebind teams.pyLen fun n =>
    .ok (s.addInfo ("Found " ++ toString n ++ " team(s)"))

/-- The body of the validate_credentials loop for one record. -/
def validateCredRecord (s : VState) (cred : Value) : Except PyExn VState :=
  ebind (cred.pyGetD "name" (.str "unnamed")) fun name =>
  ebind (setAdd s.defined_credentials name) fun d =>
  let s := { s with defined_credentials := d }
  ebind (cred.pyContains "name") fun hasName =>
  let s := if hasName then s else s.addError "Credential missing 'name' field"
  ebind (cred.pyContains "credential_type") fun hasType =>
  let s := if hasType then s else
    s.addError ("Credential '" ++ name.pyStr ++ "' missing credential_type")
  ebind (cred.pyContains "organization") fun hasOrg =>
  let s := if hasOrg then s else
    s.addError ("Credential '" ++ name.pyStr ++ "' missing organization")
  ebind (cred.pyGetD "inputs" (.dict [])) fun inputs =>
  checkSensitive name inputs s sensitive_fields

/-- AAPConfigValidator.validate_credentials (note: no emptiness guard, unlike
organizations and teams). -/
def validate_credentials (s : VState) (config : Value) : Except PyExn VState :=
  ebind (config.pyGetD "controller_credentials" (.list [])) fun credentials =>
  ebind credentials.pyIterate fun lst =>
  ebind (foldRecords validateCredRecord s lst) fun s =>
  ebind credentials.pyLen fun n =>
  .ok (s.addInfo ("Found " ++ toString n ++ " credential(s)"))

/-- The digest Warning message of validate_execution_environments. -/
def eeDigestMsg (nm : String) : String :=
  "Execution Environment '" ++ nm ++ "' should use digest-based image reference in production"

/-- The latest-tag Error message of validate_execution_environments. -/
def eeLatestMsg (nm : String) : String :=
  "Execution Environment '" ++ nm ++ "' uses 'latest' tag - use specific version"

/-- The body of the validate_execution_environments loop for one record. -/
def validateEERecord (s : VState) (ee : Value) : Except PyExn VState :=
  ebind (ee.pyGetD "name" (.str "unnamed")) fun name =>
  ebind (setAdd s.defined_ees name) fun d =>
  let s := { s with defined_ees := d }
  ebind (ee.pyContains "name") fun hasName =>
  let s := if hasName then s else s.addError "Execution Environment missing 'name' field"
  ebind (ee.pyContains "image") fun hasImage =>
  if !hasImage then
    .ok (s.addError ("Execution Environment '" ++ name.pyStr ++ "' missing image"))
  else
    ebind (ee.pySubscript "image") fun image =>
    ebind (image.pyContains "@sha256:") fun hasDigest =>
    let s := if !hasDigest && (s.environment == some "prod") then
        s.addWarning (eeDigestMsg name.pyStr)
      else s
    ebind (image.pyContains ":latest") fun hasLatest =>
    let s := if hasLatest then s.addError (eeLatestMsg name.pyStr) else s
    .ok s

/-- AAPConfigValidator.validate_execution_environments. -/
def validate_execution_environments (s : VState) (config : Value) : Except PyExn VState :=
  ebind (config.pyGetD "controller_execution_environments" (.list [])) fun ees =>
  ebind ees.pyIterate fun lst =>
  ebind (foldRecords validateEERecord s lst) fun s =>
  ebind ees.pyLen fun n =>
  .ok (s.addInfo ("Found " ++ toString n ++ " execution environment(s)"))

/-- The body of the validate_projects loop for one record. -/
def validateProjectRecord (s : VState) (project : Value) : Except PyExn VState :=
  ebind (project.pyGetD "name" (.str "unnamed")) fun name =>
  ebind (setAdd s.defined_projects name) fun d =>
  let s := { s with defined_projects := d }
  ebind (project.pyContains "name") fun hasName =>
  let s := if hasName then s else s.addError "Project missing 'name' field"
  ebind (project.pyContains "scm_type") fun hasType =>
  ebind (if !hasType then .ok (s.addError ("Project '" ++ name.pyStr ++ "' missing scm_type"))
    else
      ebind (project.pySubscript "scm_type") fun st =>
      .ok (if st == Value.str "git" then s else
        s.addWarning ("Project '" ++ name.pyStr ++
          "' not using Git SCM (Constitutional Article I: GitOps First)"))) fun s =>
  ebind (project.pyContains "scm_url") fun hasUrl =>
  let s := if hasUrl then s else s.addError ("Project '" ++ name.pyStr ++ "' missing scm_url")
  ebind (project.pyContains "scm_branch") fun hasBranch =>
  let s := if hasBranch then s else
    s.addWarning ("Project '" ++ name.pyStr ++ "' not specifying branch - will use repository default")
  ebind (project.pyContains "credential") fun hasCred =>
  ebind (if hasCred then
      ebind (project.pySubscript "credential") fun v =>
      ebind (setAdd s.referenced_credentials v) fun r =>
      .ok { s with referenced_credentials := r }
    else .ok s) fun s =>
  ebind (project.pyContains "default_environment") fun hasDE =>
  ebind (if hasDE then
      ebind (project.pySubscript "default_environment") fun v =>
      ebind (setAdd s.referenced_ees v) fun r =>
      .ok { s with referenced_ees := r }
    else .ok s) fun s =>
  .ok s

/-- AAPConfigValidator.validate_projects. -/
def validate_projects (s : VState) (config : Value) : Except PyExn VState :=
  ebind (config.pyGetD "controller_projects" (.list [])) fun projects =>
  ebind projects.pyIterate fun lst =>
  ebind (foldRecords validateProjectRecord s lst) fun s =>
  ebind projects.pyLen fun n =>
  .ok (s.addInfo ("Found " ++ toString n ++ " project(s)"))

/-- The body of the validate_inventories loop for one record. -/
def validateInvRecord (s : VState) (inventory : Value) : Except PyExn VState :=
  ebind (inventory.pyGetD "name" (.str "unnamed")) fun name =>
  ebind (setAdd s.defined_inventories name) fun d =>
  let s := { s with defined_inventories := d }
  ebind (inventory.pyContains "name") fun hasName =>
  let s := if hasName then s else s.addError "Inventory missing 'name' field"
  ebind (inventory.pyContains "organization") fun hasOrg =>
  let s := if hasOrg then s else
    s.addError ("Inventory '" ++ name.pyStr ++ "' missing organization")
  .ok s

/-- AAPConfigValidator.validate_inventories. -/
def validate_inventories (s : VState) (config : Value) : Except PyExn VState :=
  ebind (config.pyGetD "controller_inventories" (.list [])) fun inventories =>
  ebind inventories.pyIterate fun lst =>
  ebind (foldRecords validateInvRecord s lst) fun s =>
  ebind inventories.pyLen fun n =>
  .ok (s.addInfo ("Found " ++ toString n ++ " inventor(y|ies)"))

/-- The missing-field Error message of validate_job_templates for a
required field. -/
def jtMissingMsg (nm f : String) : String :=
  "Job Template '" ++ nm ++ "' missing " ++ f

/-- The inner loop of validate_job_templates over the credentials list:
bare string entries and dict entries carrying a name are added to the
referenced credentials. -/
def addCredRef (s : VState) (c : Value) : Except PyExn VState :=
  match c with
  | .str a =>
    ebind (setAdd s.referenced_credentials (.str a)) fun r =>
    .ok { s with referenced_credentials := r }
  | .dict kvs =>
    match kvs.lookup "name" with
    | some v =>
      ebind (setAdd s.referenced_credentials v) fun r =>
      .ok { s with referenced_credentials := r }
    | none => .ok s
  | _ => .ok s

/-- The variable-prompts Warning message of validate_job_templates. -/
def jtPromptsMsg (nm : String) : String :=
  "Job Template '" ++ nm ++ "' allows variable prompts in production - consider pre-defining variables"

/-- The fact-cache Warning message of validate_job_templates. -/
def jtFactCacheMsg (nm : String) : String :=
  "Job Template '" ++ nm ++ "' not using fact cache - consider enabling for performance"

/-- The production-gated checks of validate_job_templates: only when the
active environment is prod, warn on truthy ask_variables_on_launch and on
falsy/absent use_fact_cache. -/
def jtProdChecks (s : VState) (template name : Value) : Except PyExn VState :=
  if s.environment == some "prod" then
    ebind (template.pyGetD "ask_variables_on_launch" (.bool false)) fun av =>
    let s := if av.truthy then s.addWarning (jtPromptsMsg name.pyStr) else s
    ebind (template.pyGetD "use_fact_cache" (.bool false)) fun fc =>
    let s := if !fc.truthy then s.addWarning (jtFactCacheMsg name.pyStr) else s
    .ok s
  else .ok s

/-- The body of the validate_job_templates loop for one record. -/
def validateJTRecord (s : VState) (template : Value) : Except PyExn VState :=
  ebind (template.pyGetD "name" (.str "unnamed")) fun name =>
  ebind (template.pyContains "name") fun hasName =>
  let s := if hasName then s else s.addError "Job Template missing 'name' field"
  ebind (template.pyContains "project") fun hasProj =>
  ebind (if hasProj then
      ebind (template.pySubscript "project") fun v =>
      ebind (setAdd s.referenced_projects v) fun r =>
      .ok { s with referenced_projects := r }
    else .ok (s.addError (jtMissingMsg name.pyStr "project"))) fun s =>
  ebind (template.pyContains "inventory") fun hasInv =>
  ebind (if hasInv then
      ebind (template.pySubscript "inventory") fun v =>
      ebind (setAdd s.referenced_inventories v) fun r =>
      .ok { s with referenced_inventories := r }
    else .ok (s.addError (jtMissingMsg name.pyStr "inventory"))) fun s =>
  ebind (template.pyContains "playbook") fun hasPb =>
  let s := if hasPb then s else s.addError (jtMissingMsg name.pyStr "playbook")
  ebind (template.pyContains "credentials") fun hasCreds =>
  ebind (if hasCreds then
      ebind (template.pySubscript "credentials") fun cv =>
      ebind cv.pyIterate fun cl =>
      foldRecords addCredRef s cl
    else .ok s) fun s =>
  ebind (template.pyContains "execution_environment") fun hasEE =>
  ebind (if hasEE then
      ebind (template.pySubscript "execution_environment") fun v =>
      ebind (setAdd s.referenced_ees v) fun r =>
      .ok { s with referenced_ees := r }
    else .ok s) fun s =>
  jtProdChecks s template name

/-- AAPConfigValidator.validate_job_templates. -/
def validate_job_templates (s : VState) (config : Value) : Except PyExn VState :=
  ebind (config.pyGetD "controller_templates" (.list [])) fun templates =>
  ebind templates.pyIterate fun lst =>
  ebind (foldRecords validateJTRecord s lst) fun s =>
  ebind templates.pyLen fun n =>
  .ok (s.addInfo ("Found " ++ toString n ++ " job template(s)"))

/-- The body of the validate_workflow_templates loop for one record. -/
def validateWFRecord (s : VState) (workflow : Value) : Except PyExn VState :=
  ebind (workflow.pyGetD "name" (.str "unnamed")) fun name =>
  ebind (workflow.pyContains "name") fun hasName =>
  let s := if hasName then s else s.addError "Workflow Template missing 'name' field"
  ebind (workflow.pyContains "simplified_workflow_nodes") fun hasSimple =>
  ebind (workflow.pyContains "workflow_nodes") fun hasNodes =>
  let s := if !hasSimple && !hasNodes then
      s.addWarning ("Workflow Template '" ++ name.pyStr ++ "' has no workflow nodes defined")
    else s
  .ok s

/-- AAPConfigValidator.validate_workflow_templates. -/
def validate_workflow_templates (s : VState) (config : Value) : Except PyExn VState :=
  ebind (config.pyGetD "controller_workflows" (.list [])) fun workflows =>
  ebind workflows.pyIterate fun lst =>
  ebind (foldRecords validateWFRecord s lst) fun s =>
  ebind workflows.pyLen fun n =>
  .ok (s.addInfo ("Found " ++ toString n ++ " workflow template(s)"))

/-- The body of the validate_schedules loop for one record. -/
def validateSchedRecord (s : VState) (schedule : Value) : Except PyExn VState :=
  ebind (schedule.pyGetD "name" (.str "unnamed")) fun name =>
  ebind (schedule.pyContains "name") fun hasName =>
  let s := if hasName then s else s.addError "Schedule missing 'name' field"
  ebind (schedule.pyContains "rrule") fun hasRrule =>
  let s := if hasRrule then s else s.addError ("Schedule '" ++ name.pyStr ++ "' missing rrule")
  ebind (schedule.pyContains "unified_job_template") fun hasUJT =>
  let s := if hasUJT then s else
    s.addError ("Schedule '" ++ name.pyStr ++ "' missing unified_job_template")
  ebind (schedule.pyGetD "enabled" (.bool true)) fun en =>
  let s := if en.truthy && (s.environment == some "prod") then
      s.addInfo ("Schedule '" ++ name.pyStr ++ "' is enabled in production")
    else s
  .ok s

/-- AAPConfigValidator.validate_schedules. -/
def validate_schedules (s : VState) (config : Value) : Except PyExn VState :=
  ebind (config.pyGetD "controller_schedules" (.list [])) fun schedules =>
  ebind schedules.pyIterate fun lst =>
  ebind (foldRecords validateSchedRecord s lst) fun s =>
  ebind schedules.pyLen fun n =>
  .ok (s.addInfo ("Found " ++ toString n ++ " schedule(s)"))

/-- The dangling-reference Warning message of validate_references for one
resource kind and one referenced name. -/
def refWarn (kind : String) (v : Value) : String :=
  "Referenced " ++ kind ++ " '" ++ v.pyStr ++ "' is not defined (may be in different environment)"

/-- The set difference Referenced minus Defined, in the insertion order of
the referenced set. -/
def undefinedOf (refs defs : List Value) : List Value :=
  refs.filter (fun v => !defs.contains v)

/-- One Warning per dangling name of one kind. -/
def refWarnings (kind : String) (refs defs : List Value) : List String :=
  (undefinedOf refs defs).map (refWarn kind)

/-- AAPConfigValidator.validate_references: the four kind-wise set
differences, each emitting one Warning per dangling name. -/
def validate_references (s : VState) : VState :=
  { s with warnings := s.warnings
      ++ refWarnings "credential" s.referenced_credentials s.defined_credentials
      ++ refWarnings "project" s.referenced_projects s.defined_projects
      ++ refWarnings "inventory" s.referenced_inventories s.defined_inventories
      ++ refWarnings "execution environment" s.referenced_ees s.defined_ees }

/-- The decode outcome of one configuration file: absent, failing to parse,
or decoding to a value. -/
inductive FileContent where
  | missing : FileContent
  | parseError : String → FileContent
  | doc : Value → FileContent

/-- AAPConfigValidator.load_yaml_file: a missing file yields a Warning and an
empty dict, a parse failure yields an Error and an empty dict, and a falsy
document is replaced by an empty dict. -/
def load_yaml_file (s : VState) (path : String) (fc : FileContent) : VState × Value :=
  match fc with
  | .missing => (s.addWarning ("File not found: " ++ path), .dict [])
  | .parseError e => (s.addError ("YAML parsing error in " ++ path ++ ": " ++ e), .dict [])
  | .doc v => (s, if v.truthy then v else .dict [])

/-- One environment directory: whether the group_vars path exists, its path
text, and the per-filename file contents. -/
structure EnvDir where
  present : Bool
  path : String
  files : List (String × FileContent)

/-- The content of one named file of an environment directory (absent from
the listing means the file does not exist). -/
def fileOf (d : EnvDir) (name : String) : FileContent :=
  (d.files.lookup name).getD .missing

/-- The config_files mapping of validate_environment, in source order. -/
def config_files : List (String × (VState → Value → Except PyExn VState)) :=
  [("organizations.yml", validate_organizations),
   ("teams.yml", validate_teams),
   ("credentials.yml", validate_credentials),
   ("execution_environments.yml", validate_execution_environments),
   ("projects.yml", validate_projects),
   ("inventories.yml", validate_inventories),
   ("job_templates.yml", validate_job_templates),
   ("workflow_templates.yml", validate_workflow_templates),
   ("schedules.yml", validate_schedules)]

/-- The per-file loop of validate_environment: existing files are loaded and
their validator run only when the decoded document is truthy. -/
def runConfigFiles (d : EnvDir) : VState → List (String × (VState → Value → Except PyExn VState)) → Except PyExn VState
  | s, [] => .ok s
  | s, (fname, vf) :: rest =>
    match fileOf d fname with
    | .missing => runConfigFiles d s rest
    | fc =>
      let r := load_yaml_file s (d.path ++ "/" ++ fname) fc
      if r.2.truthy then ebind (vf r.1 r.2) fun s2 => runConfigFiles d s2 rest
      else runConfigFiles d r.1 rest

/-- AAPConfigValidator.validate_environment: a missing environment directory
short-circuits with a single Error; otherwise the nine files are processed in
order and references reconciled. -/
def validate_environment (s : VState) (d : EnvDir) : Except PyExn (VState × Bool) :=
  if !d.present then
    .ok (s.addError ("Environment path not found: " ++ d.path), false)
  else
    ebind (runConfigFiles d s config_files) fun s2 =>
    .ok (validate_references s2, true)

/-- The rendered report of print_results: the three finding lists and the
returned pass/fail status, which is true exactly when the error list is
empty. -/
structure Report where
  errors : List String
  warnings : List String
  info : List String
  passed : Bool

/-- AAPConfigValidator.print_results as a report value. -/
def print_results (s : VState) : Report :=
  { errors := s.errors, warnings := s.warnings, info := s.info,
    passed := s.errors.isEmpty }

/-- One iteration of the main loop: a fresh validator for the environment,
validate_environment (whose return value main discards), then
print_results. -/
def envOutcome (dirs : String → EnvDir) (e : String) : Except PyExn Report :=
  ebind (validate_environment (VState.init (some e)) (dirs e)) fun r =>
  .ok (print_results r.1)

/-- The main loop over the requested environments, accumulating all_passed
left to right. -/
def mainLoop (dirs : String → EnvDir) (acc : Bool) : List String → Except PyExn (List Report × Bool)
  | [] => .ok ([], acc)
  | e :: rest =>
    ebind (envOutcome dirs e) fun rep =>
    ebind (mainLoop dirs (acc && rep.passed) rest) fun pr =>
    .ok (rep :: pr.1, pr.2)

/-- Helper for stating run independence: each environment's outcome computed
in isolation, in order. -/
def independentOutcomes (dirs : String → EnvDir) : List String → Except PyExn (List Report)
  | [] => .ok []
  | e :: rest =>
    ebind (envOutcome dirs e) fun r =>
    ebind (independentOutcomes dirs rest) fun rs =>
    .ok (r :: rs)

/-- The state of a successful environment run (dummy initial state on a
raised exception; used only to state facts about runs proved successful). -/
def stateOf (r : Except PyExn (VState × Bool)) : VState :=
  match r with
  | .ok p => p.1
  | .error _ => VState.init none

/-- The state of a successful validator run (dummy initial state on a raised
exception; used only to state facts about runs proved successful). -/
def vstateOf (r : Except PyExn VState) : VState :=
  match r with
  | .ok s => s
  | .error _ => VState.init none

/-- An organizations document holding one record with no name field. -/
def orgUnnamedCfg : Value :=
  .dict [("controller_organizations", Value.list [Value.dict []])]

/-- An organizations document whose recognized key holds zero records. -/
def orgEmptyCfg : Value :=
  .dict [("controller_organizations", Value.list [])]

/-- A teams document whose recognized key holds zero records. -/
def teamEmptyCfg : Value :=
  .dict [("controller_teams", Value.list [])]

/-- A credential record shaped so that validate_credentials cannot raise on
it: a mapping whose name (when present) is hashable and whose inputs entry
(when present) is a mapping. -/
def wellShapedCred : Value → Bool
  | .dict kvs =>
    (match kvs.lookup "name" with
     | some n => n.hashable
     | none => true) &&
    (match kvs.lookup "inputs" with
     | some (.dict _) => true
     | some _ => false
     | none => true)
  | _ => false

/-- Whether the sensitive-field check of validate_credentials flags field f
of the given inputs mapping: present, and the stringified value starts with
neither marker. -/
def plaintextFlag (ins : List (String × Value)) (f : String) : Bool :=
  match ins.lookup f with
  | some v => !(strStartsWith v.pyStr lookupMarker) && !(strStartsWith v.pyStr "!vault")
  | none => false

/-- The per-field sensitive-value contract used to state C1: the
unencrypted-secret Error for field f is present exactly when f maps under
inputs to a value whose stringification starts with neither marker. -/
def flaggedIff (ins : List (String × Value)) (t : VState) (nm f : String) : Prop :=
  unencMsg nm f ∈ t.errors ↔
    ∃ v, ins.lookup f = some v ∧ strStartsWith v.pyStr lookupMarker = false ∧
      strStartsWith v.pyStr "!vault" = false

/-- A credential record fixture with the three required fields and an inputs
mapping. -/
def credRecord (nm : String) (ct org : Value) (ins : List (String × Value)) : Value :=
  .dict [("name", .str nm), ("credential_type", ct), ("organization", org),
         ("inputs", .dict ins)]

/-- A credentials document holding one credential record. -/
def credConfig (nm : String) (ct org : Value) (ins : List (String × Value)) : Value :=
  .dict [("controller_credentials", .list [credRecord nm ct org ins])]

/-- An execution-environment record fixture with a name and an image. -/
def eeRecord (nm img : String) : Value :=
  .dict [("name", .str nm), ("image", .str img)]

/-- An execution-environments document holding one record. -/
def eeConfig (nm img : String) : Value :=
  .dict [("controller_execution_environments", .list [eeRecord nm img])]

/-- An optional string field of a record fixture. -/
def optField (k : String) : Option String → List (String × Value)
  | some v => [(k, .str v)]
  | none => []

/-- A job-template record fixture: named, with optional project and
inventory references and a playbook. -/
def jtRecord (nm : String) (proj inv : Option String) (pb : String) : Value :=
  .dict (("name", .str nm) :: (optField "project" proj ++ optField "inventory" inv ++
    [("playbook", .str pb)]))

/-- A job-templates document holding one record. -/
def jtConfig (nm : String) (proj inv : Option String) (pb : String) : Value :=
  .dict [("controller_templates", .list [jtRecord nm proj inv pb])]

/-- The seven recognized files whose validators have no emptiness guard,
with their recognized key and their zero-count Info message. -/
def noGuardFiles : List (String × String × String) :=
  [("credentials.yml", "controller_credentials", "Found 0 credential(s)"),
   ("execution_environments.yml", "controller_execution_environments",
     "Found 0 execution environment(s)"),
   ("projects.yml", "controller_projects", "Found 0 project(s)"),
   ("inventories.yml", "controller_inventories", "Found 0 inventor(y|ies)"),
   ("job_templates.yml", "controller_templates", "Found 0 job template(s)"),
   ("workflow_templates.yml", "controller_workflows", "Found 0 workflow template(s)"),
   ("schedules.yml", "controller_schedules", "Found 0 schedule(s)")]

/-- The nine recognized file names, in source order. -/
def configFileNames : List String :=
  ["organizations.yml", "teams.yml", "credentials.yml", "execution_environments.yml",
   "projects.yml", "inventories.yml", "job_templates.yml", "workflow_templates.yml",
   "schedules.yml"]

/-- An environment directory holding exactly one file. -/
def oneFileDir (fname : String) (fc : FileContent) : EnvDir :=
  ⟨true, "base", [(fname, fc)]⟩

/-- A duplicate-free list of values (the invariant of the modelled sets). -/
def nodupValues : List Value → Bool
  | [] => true
  | v :: vs => !vs.contains v && nodupValues vs

/-- All values of a list are strings. -/
def allStrValues : List Value → Bool
  | [] => true
  | Value.str _ :: tl => allStrValues tl
  | _ => false

/-- One state extends another: the environment is unchanged, every finding
list of the old state is an unchanged prefix of the new one, and every
defined/referenced set keeps its elements and their order, only gaining new
ones at the end. -/
def Extends (s t : VState) : Prop :=
  t.environment = s.environment ∧
  (∃ u, t.errors = s.errors ++ u) ∧
  (∃ u, t.warnings = s.warnings ++ u) ∧
  (∃ u, t.info = s.info ++ u) ∧
  (∃ u, t.defined_credentials = s.defined_credentials ++ u) ∧
  (∃ u, t.defined_projects = s.defined_projects ++ u) ∧
  (∃ u, t.defined_inventories = s.defined_inventories ++ u) ∧
  (∃ u, t.defined_ees = s.defined_ees ++ u) ∧
  (∃ u, t.defined_organizations = s.defined_organizations ++ u) ∧
  (∃ u, t.defined_teams = s.defined_teams ++ u) ∧
  (∃ u, t.referenced_credentials = s.referenced_credentials ++ u) ∧
  (∃ u, t.referenced_projects = s.referenced_projects ++ u) ∧
  (∃ u, t.referenced_inventories = s.referenced_inventories ++ u) ∧
  (∃ u, t.referenced_ees = s.referenced_ees ++ u)

/-! Basic lemmas about the sequencing of possibly-raising statements. -/

@[simp]
theorem ebind_ok {α β : Type} (a : α) (f : α → Except PyExn β) : ebind (.ok a) f = f a := rfl

@[simp]
theorem ebind_error {α β : Type} (e : PyExn) (f : α → Except PyExn β) :
    ebind (.error e) f = .error e := rfl

theorem ebind_ok_iff {α β : Type} {x : Except PyExn α} {f : α → Except PyExn β} {b : β} :
    ebind x f = .ok b ↔ ∃ a, x = .ok a ∧ f a = .ok b := by
  cases x <;> simp [ebind]

/-- C2: for every validation run, the overall result passed is false if and
only if at least one Error-severity finding was accumulated; any number of
Warning or Info findings with zero Error findings yields passed = true. -/
theorem c2_passed_iff_error_findings :
    (∀ s : VState, ((print_results s).passed = false ↔ s.errors ≠ []) ∧
      (s.errors = [] → (print_results s).passed = true)) ∧
    (∀ (dirs : String → EnvDir) (e : String) (r : Report),
      envOutcome dirs e = .ok r → (r.passed = false ↔ r.errors ≠ [])) := by
  constructor
  · intro s
    constructor
    · cases h : s.errors <;> simp [print_results, List.isEmpty, h]
    · intro h; simp [print_results, h]
  · intro dirs e r h
    unfold envOutcome at h
    obtain ⟨p, hp, h⟩ := ebind_ok_iff.1 h
    cases h
    cases hJ : (p.1).errors <;> simp [print_results, List.isEmpty, hJ]

/-- Witness for C2 at a concrete state with a warning and no errors. -/
theorem c2_passed_iff_error_findings_witness :
    (print_results ((VState.init none).addWarning "w")).passed = true :=
  (c2_passed_iff_error_findings.1 ((VState.init none).addWarning "w")).2 rfl

/-- C5 counterexample: a credentials document whose recognized key maps to
null makes validate_credentials raise TypeError (iteration over None), and a
recognized key mapping to a list holding a non-mapping record makes it raise
AttributeError (no .get on a str) — the exception propagates out of the
validator instead of becoming an Error finding. -/
theorem c5_counterexample :
    validate_credentials (VState.init none)
      (.dict [("controller_credentials", Value.null)]) = .error .typeError ∧
    validate_credentials (VState.init none)
      (.dict [("controller_credentials", Value.list [Value.str "x"])]) = .error .attributeError :=
  ⟨rfl, rfl⟩

/-- C6 counterexample: for an organization record missing its name field, the
placeholder name unnamed IS added to the defined-organizations set (the claim
says it is used for message text only), alongside the Error finding for the
missing required field. -/
theorem c6_counterexample :
    (vstateOf (validate_organizations (VState.init none) orgUnnamedCfg)).defined_organizations.contains
      (Value.str "unnamed") = true ∧
    (vstateOf (validate_organizations (VState.init none) orgUnnamedCfg)).errors =
      ["Organization missing 'name' field"] :=
  ⟨rfl, rfl⟩

/-- C7 counterexample: an organizations file that exists and decodes to a
non-empty document whose recognized key maps to zero records produces no
Info finding at all — the validator's emptiness guard emits a Warning
instead, contradicting the claimed Found-0 Info for every recognized key. -/
theorem c7_counterexample :
    (stateOf (validate_environment (VState.init (some "dev"))
      (oneFileDir "organizations.yml" (.doc orgEmptyCfg)))).info = [] ∧
    (stateOf (validate_environment (VState.init (some "dev"))
      (oneFileDir "organizations.yml" (.doc orgEmptyCfg)))).warnings =
      ["No organizations defined"] ∧
    (stateOf (validate_environment (VState.init (some "dev"))
      (oneFileDir "organizations.yml" (.doc orgEmptyCfg)))).errors = [] :=
  ⟨rfl, rfl, rfl⟩

/-- C9: the main loop's reports are exactly the outcomes of each requested
environment computed in isolation from a fresh empty state — no state of one
run is visible in the next — and validating the same environment twice over
the same directory yields the identical report twice; an environment's
outcome depends only on its own directory. -/
theorem c9_runs_independent_and_idempotent :
    (∀ (dirs : String → EnvDir) (acc : Bool) (envs : List String),
      mainLoop dirs acc envs =
        match independentOutcomes dirs envs with
        | .error ex => .error ex
        | .ok rs => .ok (rs, rs.foldl (fun a r => a && r.passed) acc)) ∧
    (∀ (dirs : String → EnvDir) (e : String) (r : Report),
      envOutcome dirs e = .ok r →
      mainLoop dirs true [e, e] = .ok ([r, r], r.passed && r.passed)) ∧
    (∀ (dirs1 dirs2 : String → EnvDir) (e : String), dirs1 e = dirs2 e →
      envOutcome dirs1 e = envOutcome dirs2 e) := by
  have key : ∀ (dirs : String → EnvDir) (envs : List String) (acc : Bool),
      mainLoop dirs acc envs =
        match independentOutcomes dirs envs with
        | .error ex => .error ex
        | .ok rs => .ok (rs, rs.foldl (fun a r => a && r.passed) acc) := by
    intro dirs envs
    induction envs with
    | nil => intro acc; rfl
    | cons e rest ih =>
      intro acc
      show ebind (envOutcome dirs e) _ = _
      cases he : envOutcome dirs e with
      | error ex => simp [independentOutcomes, he]
      | ok r =>
        rw [independentOutcomes, he, ebind_ok, ebind_ok, ih]
        cases hrest : independentOutcomes dirs rest <;> simp [List.foldl_cons]
  refine ⟨fun dirs acc envs => key dirs envs acc, ?_, ?_⟩
  · intro dirs e r h
    rw [key]
    simp [independentOutcomes, h, List.foldl_cons, Bool.true_and]
  · intro dirs1 dirs2 e h
    unfold envOutcome
    rw [h]

/-- Witness for C9 at a concrete directory function and environment, whose
outcome is the failed single-error report of a missing environment path. -/
theorem c9_runs_independent_and_idempotent_witness :
    mainLoop (fun _ => ⟨false, "q", []⟩) true ["dev", "dev"] =
      .ok ([print_results ((VState.init (some "dev")).addError "Environment path not found: q"),
            print_results ((VState.init (some "dev")).addError "Environment path not found: q")],
        (print_results ((VState.init (some "dev")).addError "Environment path not found: q")).passed &&
        (print_results ((VState.init (some "dev")).addError "Environment path not found: q")).passed) :=
  c9_runs_independent_and_idempotent.2.1 (fun _ => ⟨false, "q", []⟩) "dev"
    (print_results ((VState.init (some "dev")).addError "Environment path not found: q")) rfl

theorem unencMsg_length (nm f : String) :
    (unencMsg nm f).length = nm.length + f.length + 62 := by
  have h1 : ("Credential '" : String).length = 12 := rfl
  have h2 : ("' has unencrypted '" : String).length = 19 := rfl
  have h3 : ("' - use ansible-vault or lookup" : String).length = 31 := rfl
  simp only [unencMsg, String.length_append, h1, h2, h3]
  omega

theorem unencMsg_inj_len {nm f g : String} (h : unencMsg nm f = unencMsg nm g) :
    f.length = g.length := by
  have hl := congrArg String.length h
  rw [unencMsg_length, unencMsg_length] at hl
  omega

theorem sens_msg_inj (nm : String) {f g : String} (hf : f ∈ sensitive_fields)
    (hg : g ∈ sensitive_fields) (h : unencMsg nm f = unencMsg nm g) : f = g := by
  have hl := unencMsg_inj_len h
  simp [sensitive_fields] at hf hg
  rcases hf with rfl | rfl | rfl | rfl <;> rcases hg with rfl | rfl | rfl | rfl <;>
    first | rfl | (exfalso; revert hl; decide)

theorem plaintextFlag_iff (ins : List (String × Value)) (f : String) :
    plaintextFlag ins f = true ↔
      ∃ v, ins.lookup f = some v ∧ strStartsWith v.pyStr lookupMarker = false ∧
        strStartsWith v.pyStr "!vault" = false := by
  unfold plaintextFlag
  cases h : ins.lookup f with
  | none => simp
  | some v => simp [Bool.and_eq_true, Bool.not_eq_true']

theorem checkSensitive_spec (nameV : Value) (ins : List (String × Value)) :
    ∀ (fields : List String) (s : VState),
      checkSensitive nameV (.dict ins) s fields =
        .ok { s with errors := s.errors ++ fields.filterMap (fun f =>
          if plaintextFlag ins f then some (unencMsg nameV.pyStr f) else none) } := by
  intro fields
  induction fields with
  | nil => intro s; simp [checkSensitive]
  | cons f fs ih =>
    intro s
    simp only [checkSensitive, Value.pyContains, ebind_ok]
    cases h : ins.lookup f with
    | none =>
      simp only [h, Option.isSome_none, Bool.false_eq_true, if_false, ih,
        List.filterMap_cons, plaintextFlag, Option.getD_none]
    | some v =>
      simp only [h, Option.isSome_some, if_true, Value.pySubscript, ebind_ok]
      cases hm : (!strStartsWith v.pyStr lookupMarker && !strStartsWith v.pyStr "!vault") with
      | false =>
        simp only [hm, Bool.false_eq_true, if_false, ih, List.filterMap_cons, plaintextFlag, h]
      | true =>
        simp only [hm, if_true, ih, List.filterMap_cons, plaintextFlag, h,
          VState.addError, List.append_assoc, List.singleton_append]

theorem unencMsg_mem_filterMap (nm : String) (ins : List (String × Value)) (f : String) :
    ∀ fields : List String,
      (∀ g ∈ fields, unencMsg nm f = unencMsg nm g → f = g) →
      (unencMsg nm f ∈ fields.filterMap (fun g =>
          if plaintextFlag ins g then some (unencMsg nm g) else none) ↔
        f ∈ fields ∧ plaintextFlag ins f = true) := by
  intro fields
  induction fields with
  | nil => intro _; simp
  | cons g gs ih =>
    intro hinj
    have hgs : ∀ x ∈ gs, unencMsg nm f = unencMsg nm x → f = x :=
      fun x hx => hinj x (List.mem_cons_of_mem _ hx)
    rw [List.filterMap_cons]
    cases hp : plaintextFlag ins g with
    | false =>
      rw [if_neg (by simp [hp]), ih hgs]
      constructor
      · rintro ⟨hm, hfl⟩; exact ⟨List.mem_cons_of_mem _ hm, hfl⟩
      · rintro ⟨hm, hfl⟩
        rcases List.mem_cons.1 hm with rfl | hm'
        · rw [hfl] at hp; cases hp
        · exact ⟨hm', hfl⟩
    | true =>
      rw [if_pos (by simp [hp])]
      constructor
      · intro hm
        rcases List.mem_cons.1 hm with he | hm'
        · have heq : f = g := hinj g (List.mem_cons_self _ _) he
          subst heq
          exact ⟨List.mem_cons_self _ _, hp⟩
        · obtain ⟨h1, h2⟩ := (ih hgs).1 hm'
          exact ⟨List.mem_cons_of_mem _ h1, h2⟩
      · rintro ⟨hm, hfl⟩
        rcases List.mem_cons.1 hm with rfl | hm'
        · exact List.mem_cons_self _ _
        · exact List.mem_cons_of_mem _ ((ih hgs).2 ⟨hm', hfl⟩)


/-- C1: for every credential record and every sensitive field name among
password, secret, token, private_key present under the record's inputs
mapping, the unencrypted-secret Error finding for that field is emitted if
and only if the stringified value starts neither with the secret-lookup
marker nor with the vault marker; a value starting with either marker
produces no such finding. -/
theorem c1_unencrypted_iff_unmarked :
    ∀ (env : Option String) (nm : String) (ct org : Value) (ins : List (String × Value)),
    ∃ t, validate_credentials (VState.init env) (credConfig nm ct org ins) = .ok t ∧
      flaggedIff ins t nm "password" ∧ flaggedIff ins t nm "secret" ∧
      flaggedIff ins t nm "token" ∧ flaggedIff ins t nm "private_key" := by
  intro env nm ct org ins
  have hS := checkSensitive_spec (Value.str nm) ins sensitive_fields
    (VState.mk env [] [] [] [Value.str nm] [] [] [] [] [] [] [] [] [])
  have h1 : validate_credentials (VState.init env) (credConfig nm ct org ins) =
      ebind (ebind (checkSensitive (Value.str nm) (Value.dict ins)
          (VState.mk env [] [] [] [Value.str nm] [] [] [] [] [] [] [] [] []) sensitive_fields)
        (fun s2 => .ok s2))
        (fun s => ebind ((Value.list [credRecord nm ct org ins]).pyLen)
          (fun n => .ok (s.addInfo ("Found " ++ toString n ++ " credential(s)")))) := rfl
  rw [hS] at h1
  simp only [ebind_ok, Value.pyLen, List.length_cons, List.length_nil] at h1
  have herrs : ((VState.mk env ([] ++ sensitive_fields.filterMap (fun f =>
        if plaintextFlag ins f then some (unencMsg (Value.str nm).pyStr f) else none))
        [] [] [Value.str nm] [] [] [] [] [] [] [] [] []).addInfo
          ("Found " ++ toString (0 + 1) ++ " credential(s)")).errors =
      sensitive_fields.filterMap (fun g =>
        if plaintextFlag ins g then some (unencMsg nm g) else none) := by
    simp [VState.addInfo, Value.pyStr]
  refine ⟨_, h1, ?_, ?_, ?_, ?_⟩ <;>
    rw [flaggedIff, herrs] <;>
    rw [unencMsg_mem_filterMap nm ins _ sensitive_fields
      (fun g hg he => sens_msg_inj nm (by decide) hg he)] <;>
    simp [plaintextFlag_iff, show ("password" : String) ∈ sensitive_fields by decide,
      show ("secret" : String) ∈ sensitive_fields by decide,
      show ("token" : String) ∈ sensitive_fields by decide,
      show ("private_key" : String) ∈ sensitive_fields by decide]

/-- C4: for every execution-environment record, the latest-tag Error is
emitted iff the image contains the substring :latest, regardless of
environment, and the digest Warning is emitted iff the image lacks the
substring indicating a sha256 digest while the active environment is prod;
the checks are independent, so a prod image with :latest and no digest
produces both findings. -/
theorem c4_latest_error_and_digest_warning :
    (∀ (env : Option String) (nm img : String),
    ∃ t, validate_execution_environments (VState.init env) (eeConfig nm img) = .ok t ∧
      (eeLatestMsg nm ∈ t.errors ↔ strContains img ":latest" = true) ∧
      (eeDigestMsg nm ∈ t.warnings ↔
        (strContains img "@sha256:" = false ∧ env = some "prod"))) ∧
    (eeLatestMsg "e" ∈ (vstateOf (validate_execution_environments
      (VState.init (some "prod")) (eeConfig "e" "repo:latest"))).errors ∧
    eeDigestMsg "e" ∈ (vstateOf (validate_execution_environments
      (VState.init (some "prod")) (eeConfig "e" "repo:latest"))).warnings) := by
  constructor
  · intro env nm img
    refine ⟨_, rfl, ?_, ?_⟩ <;>
    · cases hlat : strContains img ":latest" <;>
      cases hdig : strContains img "@sha256:" <;>
      by_cases henv : env = some "prod" <;>
      simp [hlat, hdig, henv, VState.addError, VState.addWarning, VState.addInfo,
        VState.init, Value.pyStr, beq_iff_eq, beq_eq_false_iff_ne]
  · constructor <;> decide

theorem jtMissingMsg_length (nm f : String) :
    (jtMissingMsg nm f).length = nm.length + f.length + 24 := by
  have h1 : ("Job Template '" : String).length = 14 := rfl
  have h2 : ("' missing " : String).length = 10 := rfl
  simp only [jtMissingMsg, String.length_append, h1, h2]
  omega

theorem jtMissingMsg_proj_ne_inv (nm : String) :
    jtMissingMsg nm "project" ≠ jtMissingMsg nm "inventory" := by
  intro h
  have hl := congrArg String.length h
  rw [jtMissingMsg_length, jtMissingMsg_length] at hl
  have h7 : ("project" : String).length = 7 := rfl
  have h9 : ("inventory" : String).length = 9 := rfl
  rw [h7, h9] at hl
  omega

theorem jtProdChecks_no_keys (s : VState) (name : Value) (kvs : List (String × Value))
    (h1 : kvs.lookup "ask_variables_on_launch" = none)
    (h2 : kvs.lookup "use_fact_cache" = none) :
    jtProdChecks s (.dict kvs) name =
      .ok { s with warnings := s.warnings ++
        (if s.environment == some "prod" then [jtFactCacheMsg name.pyStr] else []) } := by
  unfold jtProdChecks
  cases hb : s.environment == some "prod" <;>
    simp [hb, Value.pyGetD, h1, h2, VState.addWarning, Value.truthy]

/-- C8: for every job-template record, an absent project field yields the
missing-project Error and adds nothing to the referenced-projects set, and
likewise for inventory; when the field is present its value is added to the
respective referenced set and no such Error is emitted. -/
theorem c8_project_inventory_required :
    ∀ (env : Option String) (nm : String) (proj inv : Option String) (pb : String),
    ∃ t, validate_job_templates (VState.init env) (jtConfig nm proj inv pb) = .ok t ∧
      (jtMissingMsg nm "project" ∈ t.errors ↔ proj = none) ∧
      (jtMissingMsg nm "inventory" ∈ t.errors ↔ inv = none) ∧
      t.referenced_projects = (proj.map Value.str).toList ∧
      t.referenced_inventories = (inv.map Value.str).toList := by
  intro env nm proj inv pb
  rcases proj with _ | p <;> rcases inv with _ | i
  · have hw := jtProdChecks_no_keys
      (VState.mk env [jtMissingMsg nm "project", jtMissingMsg nm "inventory"] [] [] [] [] [] [] [] [] [] [] [] [])
      (Value.str nm)
      [("name", Value.str nm), ("playbook", Value.str pb)] rfl rfl
    have h1 : validate_job_templates (VState.init env) (jtConfig nm none none pb) =
        ebind (ebind (jtProdChecks
            (VState.mk env [jtMissingMsg nm "project", jtMissingMsg nm "inventory"] [] [] [] [] [] [] [] [] [] [] [] [])
            (Value.dict [("name", Value.str nm), ("playbook", Value.str pb)]) (Value.str nm))
          (fun s2 => Except.ok s2))
          (fun s => ebind (Value.pyLen (Value.list [jtRecord nm none none pb]))
            (fun n => Except.ok (s.addInfo ("Found " ++ toString n ++ " job template(s)")))) := rfl
    rw [hw] at h1
    simp only [ebind_ok, Value.pyLen] at h1
    refine ⟨_, h1, ?_, ?_, ?_, ?_⟩ <;>
      simp [VState.addInfo, jtMissingMsg_proj_ne_inv nm, (jtMissingMsg_proj_ne_inv nm).symm]
  · have hw := jtProdChecks_no_keys
      (VState.mk env [jtMissingMsg nm "project"] [] [] [] [] [] [] [] [] [] [] [Value.str i] [])
      (Value.str nm)
      [("name", Value.str nm), ("inventory", Value.str i), ("playbook", Value.str pb)] rfl rfl
    have h1 : validate_job_templates (VState.init env) (jtConfig nm none (some i) pb) =
        ebind (ebind (jtProdChecks
            (VState.mk env [jtMissingMsg nm "project"] [] [] [] [] [] [] [] [] [] [] [Value.str i] [])
            (Value.dict [("name", Value.str nm), ("inventory", Value.str i), ("playbook", Value.str pb)])
            (Value.str nm))
          (fun s2 => Except.ok s2))
          (fun s => ebind (Value.pyLen (Value.list [jtRecord nm none (some i) pb]))
            (fun n => Except.ok (s.addInfo ("Found " ++ toString n ++ " job template(s)")))) := rfl
    rw [hw] at h1
    simp only [ebind_ok, Value.pyLen] at h1
    refine ⟨_, h1, ?_, ?_, ?_, ?_⟩ <;>
      simp [VState.addInfo, jtMissingMsg_proj_ne_inv nm, (jtMissingMsg_proj_ne_inv nm).symm]
  · have hw := jtProdChecks_no_keys
      (VState.mk env [jtMissingMsg nm "inventory"] [] [] [] [] [] [] [] [] [] [Value.str p] [] [])
      (Value.str nm)
      [("name", Value.str nm), ("project", Value.str p), ("playbook", Value.str pb)] rfl rfl
    have h1 : validate_job_templates (VState.init env) (jtConfig nm (some p) none pb) =
        ebind (ebind (jtProdChecks
            (VState.mk env [jtMissingMsg nm "inventory"] [] [] [] [] [] [] [] [] [] [Value.str p] [] [])
            (Value.dict [("name", Value.str nm), ("project", Value.str p), ("playbook", Value.str pb)])
            (Value.str nm))
          (fun s2 => Except.ok s2))
          (fun s => ebind (Value.pyLen (Value.list [jtRecord nm (some p) none pb]))
            (fun n => Except.ok (s.addInfo ("Found " ++ toString n ++ " job template(s)")))) := rfl
    rw [hw] at h1
    simp only [ebind_ok, Value.pyLen] at h1
    refine ⟨_, h1, ?_, ?_, ?_, ?_⟩ <;>
      simp [VState.addInfo, jtMissingMsg_proj_ne_inv nm, (jtMissingMsg_proj_ne_inv nm).symm]
  · have hw := jtProdChecks_no_keys
      (VState.mk env [] [] [] [] [] [] [] [] [] [] [Value.str p] [Value.str i] [])
      (Value.str nm)
      [("name", Value.str nm), ("project", Value.str p), ("inventory", Value.str i), ("playbook", Value.str pb)] rfl rfl
    have h1 : validate_job_templates (VState.init env) (jtConfig nm (some p) (some i) pb) =
        ebind (ebind (jtProdChecks
            (VState.mk env [] [] [] [] [] [] [] [] [] [] [Value.str p] [Value.str i] [])
            (Value.dict [("name", Value.str nm), ("project", Value.str p), ("inventory", Value.str i), ("playbook", Value.str pb)])
            (Value.str nm))
          (fun s2 => Except.ok s2))
          (fun s => ebind (Value.pyLen (Value.list [jtRecord nm (some p) (some i) pb]))
            (fun n => Except.ok (s.addInfo ("Found " ++ toString n ++ " job template(s)")))) := rfl
    rw [hw] at h1
    simp only [ebind_ok, Value.pyLen] at h1
    refine ⟨_, h1, ?_, ?_, ?_, ?_⟩ <;>
      simp [VState.addInfo, jtMissingMsg_proj_ne_inv nm, (jtMissingMsg_proj_ne_inv nm).symm]

/-- C7 amended: a missing file and a file whose document decodes falsy are
both skipped silently with no findings; a present non-empty document whose
recognized key maps to zero records yields the zero-count Info for the seven
kinds whose validator has no emptiness guard, while organizations and teams
instead emit their no-records Warning and no Info at all. -/
theorem c7_amended_zero_count :
    (∀ (env : Option String) (p : String),
      validate_environment (VState.init env) ⟨true, p, []⟩ = .ok (VState.init env, true)) ∧
    (∀ (env : Option String) (p : String) (fname : String), fname ∈ configFileNames →
      validate_environment (VState.init env) ⟨true, p, [(fname, .doc Value.null)]⟩ =
        .ok (VState.init env, true)) ∧
    (∀ t ∈ noGuardFiles,
      (stateOf (validate_environment (VState.init none)
        (oneFileDir t.1 (.doc (Value.dict [(t.2.1, Value.list [])]))))).errors = [] ∧
      (stateOf (validate_environment (VState.init none)
        (oneFileDir t.1 (.doc (Value.dict [(t.2.1, Value.list [])]))))).warnings = [] ∧
      (stateOf (validate_environment (VState.init none)
        (oneFileDir t.1 (.doc (Value.dict [(t.2.1, Value.list [])]))))).info = [t.2.2]) ∧
    ((stateOf (validate_environment (VState.init none)
        (oneFileDir "organizations.yml" (.doc orgEmptyCfg)))).warnings =
          ["No organizations defined"] ∧
      (stateOf (validate_environment (VState.init none)
        (oneFileDir "organizations.yml" (.doc orgEmptyCfg)))).info = [] ∧
      (stateOf (validate_environment (VState.init none)
        (oneFileDir "organizations.yml" (.doc orgEmptyCfg)))).errors = []) ∧
    ((stateOf (validate_environment (VState.init none)
        (oneFileDir "teams.yml" (.doc teamEmptyCfg)))).warnings =
          ["No teams defined - consider RBAC best practices"] ∧
      (stateOf (validate_environment (VState.init none)
        (oneFileDir "teams.yml" (.doc teamEmptyCfg)))).info = [] ∧
      (stateOf (validate_environment (VState.init none)
        (oneFileDir "teams.yml" (.doc teamEmptyCfg)))).errors = []) := by
  refine ⟨?_, ?_, ?_, ⟨rfl, rfl, rfl⟩, ⟨rfl, rfl, rfl⟩⟩
  · intro env p; rfl
  · intro env p fname h
    fin_cases h <;> rfl
  · intro t ht
    fin_cases ht <;> exact ⟨rfl, rfl, rfl⟩

theorem foldRecords_all_ok {p : Value → Bool} {f : VState → Value → Except PyExn VState}
    (hf : ∀ (s : VState) (v : Value), p v = true → ∃ t, f s v = .ok t) :
    ∀ (recs : List Value) (s : VState), recs.all p = true →
      ∃ t, foldRecords f s recs = .ok t := by
  intro recs
  induction recs with
  | nil => intro s _; exact ⟨s, rfl⟩
  | cons v vs ih =>
    intro s hall
    rw [List.all_cons, Bool.and_eq_true] at hall
    obtain ⟨t1, h1⟩ := hf s v hall.1
    obtain ⟨t2, h2⟩ := ih t1 hall.2
    exact ⟨t2, by simp [foldRecords, h1, h2]⟩

theorem validateCredRecord_ok (s : VState) (v : Value) (hv : wellShapedCred v = true) :
    ∃ t, validateCredRecord s v = .ok t := by
  cases v with
  | dict kvs =>
    rw [wellShapedCred, Bool.and_eq_true] at hv
    obtain ⟨h1, h2⟩ := hv
    unfold validateCredRecord
    simp only [Value.pyGetD, ebind_ok]
    have hhash : ((kvs.lookup "name").getD (Value.str "unnamed")).hashable = true := by
      cases hn : kvs.lookup "name" with
      | none => rfl
      | some n => rw [hn] at h1; simpa using h1
    unfold setAdd
    rw [if_pos hhash]
    simp only [ebind_ok, Value.pyContains]
    cases hi : kvs.lookup "inputs" with
    | none =>
      simp only [hi, Option.getD_none]
      exact ⟨_, checkSensitive_spec _ [] _ _⟩
    | some iv =>
      rw [hi] at h2
      cases iv with
      | dict ins =>
        simp only [hi, Option.getD_some]
        exact ⟨_, checkSensitive_spec _ ins _ _⟩
      | str a => exact Bool.noConfusion h2
      | int n => exact Bool.noConfusion h2
      | bool b => exact Bool.noConfusion h2
      | null => exact Bool.noConfusion h2
      | list vs => exact Bool.noConfusion h2
  | str a => simp [wellShapedCred] at hv
  | int n => simp [wellShapedCred] at hv
  | bool b => simp [wellShapedCred] at hv
  | null => simp [wellShapedCred] at hv
  | list vs => simp [wellShapedCred] at hv

/-- C5 amended: validators do not raise on well-shaped input (mapping
records whose name is hashable and whose inputs, when present, is a
mapping) — missing fields there become Error findings rather than
exceptions — and the organizations validator also tolerates its recognized
key mapping to null thanks to its emptiness guard; but validators without
that guard raise on a null key, and any validator raises on a non-mapping
record (see the counterexample). -/
theorem c5_amended_wellshaped_no_raise :
    (∀ (env : Option String) (recs : List Value), recs.all wellShapedCred = true →
      ∃ t, validate_credentials (VState.init env)
        (.dict [("controller_credentials", Value.list recs)]) = .ok t) ∧
    validate_organizations (VState.init none)
      (.dict [("controller_organizations", Value.null)]) =
      .ok ((VState.init none).addWarning "No organizations defined") := by
  refine ⟨?_, rfl⟩
  intro env recs hall
  obtain ⟨t, ht⟩ := foldRecords_all_ok validateCredRecord_ok recs (VState.init env) hall
  have h1 : validate_credentials (VState.init env)
      (.dict [("controller_credentials", Value.list recs)]) =
      ebind (foldRecords validateCredRecord (VState.init env) recs)
        (fun s => ebind ((Value.list recs).pyLen)
          (fun n => Except.ok (s.addInfo ("Found " ++ toString n ++ " credential(s)")))) := rfl
  rw [ht] at h1
  simp only [ebind_ok, Value.pyLen] at h1
  exact ⟨_, h1⟩

/-- C6 amended: a record missing its name field receives the Error finding
for the missing required field, and the literal placeholder name unnamed is
used for message text AND is added to the kind's defined-name set (the
source adds the defaulted name unconditionally). -/
theorem c6_amended_unnamed_added :
    ∀ (env : Option String) (fields : List (String × Value)),
      fields.lookup "name" = none →
      ∃ t, validate_organizations (VState.init env)
          (.dict [("controller_organizations", Value.list [Value.dict fields])]) = .ok t ∧
        "Organization missing 'name' field" ∈ t.errors ∧
        t.defined_organizations.contains (Value.str "unnamed") = true := by
  intro env fields hn
  have h1 : validate_organizations (VState.init env)
      (.dict [("controller_organizations", Value.list [Value.dict fields])]) =
      ebind (ebind (validateOrgRecord (VState.init env) (Value.dict fields))
        (fun s2 => Except.ok s2))
        (fun s => ebind ((Value.list [Value.dict fields]).pyLen)
          (fun n => Except.ok (s.addInfo ("Found " ++ toString n ++ " organization(s)")))) := rfl
  have h2 : validateOrgRecord (VState.init env) (Value.dict fields) =
      Except.ok (VState.mk env ["Organization missing 'name' field"]
        (if (fields.lookup "description").isSome then []
          else ["Organization 'unnamed' missing description"])
        [] [] [] [] [] [Value.str "unnamed"] [] [] [] [] []) := by
    unfold validateOrgRecord
    simp only [Value.pyGetD, Value.pyContains, ebind_ok, hn, Option.getD_none,
      Option.isSome_none, setAdd, Value.hashable, VState.init, VState.addError,
      VState.addWarning]
    cases hd : (fields.lookup "description").isSome <;>
      simp [hd, VState.addError, VState.addWarning, Value.pyStr]
  rw [h2] at h1
  simp only [ebind_ok, Value.pyLen] at h1
  refine ⟨_, h1, ?_, ?_⟩
  · exact List.mem_cons_self _ _
  · rfl

theorem str_data_append (s t : String) : (s ++ t).data = s.data ++ t.data := by
  cases s; cases t; rfl

theorem str_ext {s t : String} (h : s.data = t.data) : s = t := by
  cases s; cases t; exact congrArg String.mk h

theorem refWarn_str_inj (k : String) {a b : String}
    (h : refWarn k (Value.str a) = refWarn k (Value.str b)) : a = b := by
  have hd := congrArg String.data h
  simp only [refWarn, Value.pyStr, str_data_append, List.append_assoc] at hd
  have h1 := List.append_cancel_left hd
  have h2 := List.append_cancel_left h1
  have h3 := List.append_cancel_left h2
  exact str_ext (List.append_cancel_right h3)

theorem refWarn_ne_of_kind {k1 k2 : String} {c1 c2 : Char}
    (hk1 : k1.data.head? = some c1) (hk2 : k2.data.head? = some c2) (hne : c1 ≠ c2)
    (v w : Value) : refWarn k1 v ≠ refWarn k2 w := by
  intro h
  have hd := congrArg String.data h
  simp only [refWarn, str_data_append, List.append_assoc] at hd
  have h2 := List.append_cancel_left hd
  cases hl1 : k1.data with
  | nil => rw [hl1] at hk1; exact Option.noConfusion hk1
  | cons a t1 =>
    cases hl2 : k2.data with
    | nil => rw [hl2] at hk2; exact Option.noConfusion hk2
    | cons b t2 =>
      rw [hl1] at hk1
      rw [hl2] at hk2
      rw [hl1, hl2] at h2
      simp only [List.cons_append, List.cons.injEq] at h2
      simp only [List.head?_cons, Option.some.injEq] at hk1 hk2
      exact hne (hk1 ▸ hk2 ▸ h2.1)

theorem value_str_beq (a b : String) : (Value.str a == Value.str b) = (a == b) := rfl

theorem count_refWarnings_none (k : String) (v : String) :
    ∀ (refs defs : List Value), allStrValues refs = true →
      refs.contains (Value.str v) = false →
      (refWarnings k refs defs).count (refWarn k (Value.str v)) = 0 := by
  intro refs
  induction refs with
  | nil => intro defs _ _; rfl
  | cons hd tl ih =>
    intro defs hstr hcon
    cases hd with
    | str a =>
      rw [List.contains_cons, Bool.or_eq_false_iff] at hcon
      obtain ⟨hba, htl⟩ := hcon
      have hva : v ≠ a := by
        intro he
        rw [value_str_beq, he] at hba
        simp at hba
      have hne2 : refWarn k (Value.str a) ≠ refWarn k (Value.str v) :=
        fun he => hva (refWarn_str_inj k he).symm
      have h0 := ih defs hstr htl
      rw [refWarnings, undefinedOf] at h0
      rw [refWarnings, undefinedOf, List.filter_cons]
      cases hp : !defs.contains (Value.str a) with
      | true => simp [hp, List.count_cons, hne2, h0]
      | false => simp [hp, h0]
    | int n => exact Bool.noConfusion hstr
    | bool b => exact Bool.noConfusion hstr
    | null => exact Bool.noConfusion hstr
    | list vs => exact Bool.noConfusion hstr
    | dict kvs => exact Bool.noConfusion hstr

theorem count_refWarnings_dangling (k : String) (v : String) :
    ∀ (refs defs : List Value), nodupValues refs = true → allStrValues refs = true →
      refs.contains (Value.str v) = true → defs.contains (Value.str v) = false →
      (refWarnings k refs defs).count (refWarn k (Value.str v)) = 1 := by
  intro refs
  induction refs with
  | nil => intro defs _ _ hcon _; exact Bool.noConfusion hcon
  | cons hd tl ih =>
    intro defs hnd hstr hcon hdef
    cases hd with
    | str a =>
      rw [nodupValues, Bool.and_eq_true, Bool.not_eq_true'] at hnd
      obtain ⟨hndhd, hndtl⟩ := hnd
      rw [List.contains_cons] at hcon
      cases hba : (Value.str v == Value.str a) with
      | true =>
        rw [value_str_beq] at hba
        have hva : v = a := by simpa using hba
        subst hva
        rw [refWarnings, undefinedOf, List.filter_cons]
        rw [if_pos (by rw [hdef]; rfl)]
        rw [List.map_cons, List.count_cons]
        have h0 := count_refWarnings_none k v tl defs hstr hndhd
        rw [refWarnings, undefinedOf] at h0
        simp [h0]
      | false =>
        rw [hba, Bool.false_or] at hcon
        rw [value_str_beq] at hba
        have hva : v ≠ a := by simpa using hba
        have hne2 : refWarn k (Value.str a) ≠ refWarn k (Value.str v) :=
          fun he => hva (refWarn_str_inj k he).symm
        have h0 := ih defs hndtl hstr hcon hdef
        rw [refWarnings, undefinedOf] at h0
        rw [refWarnings, undefinedOf, List.filter_cons]
        cases hp : !defs.contains (Value.str a) with
        | true => simp [hp, List.count_cons, hne2, h0]
        | false => simp [hp, h0]
    | int n => exact Bool.noConfusion hstr
    | bool b => exact Bool.noConfusion hstr
    | null => exact Bool.noConfusion hstr
    | list vs => exact Bool.noConfusion hstr
    | dict kvs => exact Bool.noConfusion hstr

theorem count_refWarnings_defined (k : String) (v : String) :
    ∀ (refs defs : List Value), allStrValues refs = true →
      defs.contains (Value.str v) = true →
      (refWarnings k refs defs).count (refWarn k (Value.str v)) = 0 := by
  intro refs
  induction refs with
  | nil => intro defs _ _; rfl
  | cons hd tl ih =>
    intro defs hstr hdef
    cases hd with
    | str a =>
      have h0 := ih defs hstr hdef
      rw [refWarnings, undefinedOf] at h0
      rw [refWarnings, undefinedOf, List.filter_cons]
      cases hba : (Value.str v == Value.str a) with
      | true =>
        rw [value_str_beq] at hba
        have hva : v = a := by simpa using hba
        subst hva
        rw [if_neg (by rw [hdef]; simp)]
        exact h0
      | false =>
        rw [value_str_beq] at hba
        have hva : v ≠ a := by simpa using hba
        have hne2 : refWarn k (Value.str a) ≠ refWarn k (Value.str v) :=
          fun he => hva (refWarn_str_inj k he).symm
        cases hp : !defs.contains (Value.str a) with
        | true => simp [hp, List.count_cons, hne2, h0]
        | false => simp [hp, h0]
    | int n => exact Bool.noConfusion hstr
    | bool b => exact Bool.noConfusion hstr
    | null => exact Bool.noConfusion hstr
    | list vs => exact Bool.noConfusion hstr
    | dict kvs => exact Bool.noConfusion hstr

theorem count_refWarnings_cross {k1 k2 : String} {c1 c2 : Char}
    (hk1 : k1.data.head? = some c1) (hk2 : k2.data.head? = some c2) (hne : c1 ≠ c2)
    (v : Value) : ∀ (refs defs : List Value),
      (refWarnings k2 refs defs).count (refWarn k1 v) = 0 := by
  intro refs
  induction refs with
  | nil => intro defs; rfl
  | cons hd tl ih =>
    intro defs
    have h0 := ih defs
    rw [refWarnings, undefinedOf] at h0
    rw [refWarnings, undefinedOf, List.filter_cons]
    have hne2 : refWarn k2 hd ≠ refWarn k1 v :=
      fun he => (refWarn_ne_of_kind hk1 hk2 hne v hd) he.symm
    cases hp : !defs.contains hd with
    | true => simp [hp, List.count_cons, hne2, h0]
    | false => simp [hp, h0]

/-- C3: after the entity validators have accumulated duplicate-free
string-valued referenced sets, reference reconciliation emits, for each of
the four kinds, exactly one Warning naming each name in Referenced minus
Defined, and no such Warning for a referenced name that is also defined in
the same environment. -/
theorem c3_dangling_reference_warnings :
    ∀ s : VState,
      nodupValues s.referenced_credentials = true → allStrValues s.referenced_credentials = true →
      nodupValues s.referenced_projects = true → allStrValues s.referenced_projects = true →
      nodupValues s.referenced_inventories = true → allStrValues s.referenced_inventories = true →
      nodupValues s.referenced_ees = true → allStrValues s.referenced_ees = true →
      ∀ v : String,
        ((s.referenced_credentials.contains (Value.str v) = true →
            s.defined_credentials.contains (Value.str v) = false →
            ((validate_references s).warnings.drop s.warnings.length).count
              (refWarn "credential" (Value.str v)) = 1) ∧
          (s.referenced_credentials.contains (Value.str v) = true →
            s.defined_credentials.contains (Value.str v) = true →
            ((validate_references s).warnings.drop s.warnings.length).count
              (refWarn "credential" (Value.str v)) = 0)) ∧
        ((s.referenced_projects.contains (Value.str v) = true →
            s.defined_projects.contains (Value.str v) = false →
            ((validate_references s).warnings.drop s.warnings.length).count
              (refWarn "project" (Value.str v)) = 1) ∧
          (s.referenced_projects.contains (Value.str v) = true →
            s.defined_projects.contains (Value.str v) = true →
            ((validate_references s).warnings.drop s.warnings.length).count
              (refWarn "project" (Value.str v)) = 0)) ∧
        ((s.referenced_inventories.contains (Value.str v) = true →
            s.defined_inventories.contains (Value.str v) = false →
            ((validate_references s).warnings.drop s.warnings.length).count
              (refWarn "inventory" (Value.str v)) = 1) ∧
          (s.referenced_inventories.contains (Value.str v) = true →
            s.defined_inventories.contains (Value.str v) = true →
            ((validate_references s).warnings.drop s.warnings.length).count
              (refWarn "inventory" (Value.str v)) = 0)) ∧
        ((s.referenced_ees.contains (Value.str v) = true →
            s.defined_ees.contains (Value.str v) = false →
            ((validate_references s).warnings.drop s.warnings.length).count
              (refWarn "execution environment" (Value.str v)) = 1) ∧
          (s.referenced_ees.contains (Value.str v) = true →
            s.defined_ees.contains (Value.str v) = true →
            ((validate_references s).warnings.drop s.warnings.length).count
              (refWarn "execution environment" (Value.str v)) = 0)) := by
  intro s h1 h2 h3 h4 h5 h6 h7 h8 v
  have hW : (validate_references s).warnings.drop s.warnings.length =
      refWarnings "credential" s.referenced_credentials s.defined_credentials ++
      (refWarnings "project" s.referenced_projects s.defined_projects ++
      (refWarnings "inventory" s.referenced_inventories s.defined_inventories ++
      refWarnings "execution environment" s.referenced_ees s.defined_ees)) := by
    simp only [validate_references, List.append_assoc]
    rw [List.drop_left]
  have hc : ("credential" : String).data.head? = some 'c' := rfl
  have hp : ("project" : String).data.head? = some 'p' := rfl
  have hi : ("inventory" : String).data.head? = some 'i' := rfl
  have hee : ("execution environment" : String).data.head? = some 'e' := rfl
  rw [hW]
  simp only [List.count_append]
  refine ⟨⟨?_, ?_⟩, ⟨?_, ?_⟩, ⟨?_, ?_⟩, ⟨?_, ?_⟩⟩ <;> intro hin hdef
  · rw [count_refWarnings_dangling "credential" v _ _ h1 h2 hin hdef,
      count_refWarnings_cross hc hp (by decide) (Value.str v),
      count_refWarnings_cross hc hi (by decide) (Value.str v),
      count_refWarnings_cross hc hee (by decide) (Value.str v)]
  · rw [count_refWarnings_defined "credential" v _ _ h2 hdef,
      count_refWarnings_cross hc hp (by decide) (Value.str v),
      count_refWarnings_cross hc hi (by decide) (Value.str v),
      count_refWarnings_cross hc hee (by decide) (Value.str v)]
  · rw [count_refWarnings_dangling "project" v _ _ h3 h4 hin hdef,
      count_refWarnings_cross hp hc (by decide) (Value.str v),
      count_refWarnings_cross hp hi (by decide) (Value.str v),
      count_refWarnings_cross hp hee (by decide) (Value.str v)]
  · rw [count_refWarnings_defined "project" v _ _ h4 hdef,
      count_refWarnings_cross hp hc (by decide) (Value.str v),
      count_refWarnings_cross hp hi (by decide) (Value.str v),
      count_refWarnings_cross hp hee (by decide) (Value.str v)]
  · rw [count_refWarnings_dangling "inventory" v _ _ h5 h6 hin hdef,
      count_refWarnings_cross hi hc (by decide) (Value.str v),
      count_refWarnings_cross hi hp (by decide) (Value.str v),
      count_refWarnings_cross hi hee (by decide) (Value.str v)]
  · rw [count_refWarnings_defined "inventory" v _ _ h6 hdef,
      count_refWarnings_cross hi hc (by decide) (Value.str v),
      count_refWarnings_cross hi hp (by decide) (Value.str v),
      count_refWarnings_cross hi hee (by decide) (Value.str v)]
  · rw [count_refWarnings_dangling "execution environment" v _ _ h7 h8 hin hdef,
      count_refWarnings_cross hee hc (by decide) (Value.str v),
      count_refWarnings_cross hee hp (by decide) (Value.str v),
      count_refWarnings_cross hee hi (by decide) (Value.str v)]
  · rw [count_refWarnings_defined "execution environment" v _ _ h8 hdef,
      count_refWarnings_cross hee hc (by decide) (Value.str v),
      count_refWarnings_cross hee hp (by decide) (Value.str v),
      count_refWarnings_cross hee hi (by decide) (Value.str v)]

theorem prefRefl {α : Type} (x : List α) : ∃ u : List α, x = x ++ u :=
  ⟨[], (List.append_nil x).symm⟩

theorem prefTrans {α : Type} {x y z : List α} (h1 : ∃ u, y = x ++ u) (h2 : ∃ u, z = y ++ u) :
    ∃ u, z = x ++ u := by
  obtain ⟨a, ha⟩ := h1
  obtain ⟨b, hb⟩ := h2
  exact ⟨a ++ b, by rw [hb, ha, List.append_assoc]⟩

theorem extends_refl (s : VState) : Extends s s :=
  ⟨rfl, prefRefl _, prefRefl _, prefRefl _, prefRefl _, prefRefl _, prefRefl _, prefRefl _,
    prefRefl _, prefRefl _, prefRefl _, prefRefl _, prefRefl _, prefRefl _⟩

theorem extends_trans {s t u : VState} (h1 : Extends s t) (h2 : Extends t u) : Extends s u :=
  ⟨h2.1.trans h1.1,
    prefTrans h1.2.1 h2.2.1,
    prefTrans h1.2.2.1 h2.2.2.1,
    prefTrans h1.2.2.2.1 h2.2.2.2.1,
    prefTrans h1.2.2.2.2.1 h2.2.2.2.2.1,
    prefTrans h1.2.2.2.2.2.1 h2.2.2.2.2.2.1,
    prefTrans h1.2.2.2.2.2.2.1 h2.2.2.2.2.2.2.1,
    prefTrans h1.2.2.2.2.2.2.2.1 h2.2.2.2.2.2.2.2.1,
    prefTrans h1.2.2.2.2.2.2.2.2.1 h2.2.2.2.2.2.2.2.2.1,
    prefTrans h1.2.2.2.2.2.2.2.2.2.1 h2.2.2.2.2.2.2.2.2.2.1,
    prefTrans h1.2.2.2.2.2.2.2.2.2.2.1 h2.2.2.2.2.2.2.2.2.2.2.1,
    prefTrans h1.2.2.2.2.2.2.2.2.2.2.2.1 h2.2.2.2.2.2.2.2.2.2.2.2.1,
    prefTrans h1.2.2.2.2.2.2.2.2.2.2.2.2.1 h2.2.2.2.2.2.2.2.2.2.2.2.2.1,
    prefTrans h1.2.2.2.2.2.2.2.2.2.2.2.2.2 h2.2.2.2.2.2.2.2.2.2.2.2.2.2⟩

theorem extends_addError (s : VState) (m : String) : Extends s (s.addError m) :=
  ⟨rfl, ⟨[m], rfl⟩, prefRefl _, prefRefl _, prefRefl _, prefRefl _, prefRefl _, prefRefl _,
    prefRefl _, prefRefl _, prefRefl _, prefRefl _, prefRefl _, prefRefl _⟩

theorem extends_addWarning (s : VState) (m : String) : Extends s (s.addWarning m) :=
  ⟨rfl, prefRefl _, ⟨[m], rfl⟩, prefRefl _, prefRefl _, prefRefl _, prefRefl _, prefRefl _,
    prefRefl _, prefRefl _, prefRefl _, prefRefl _, prefRefl _, prefRefl _⟩

theorem extends_addInfo (s : VState) (m : String) : Extends s (s.addInfo m) :=
  ⟨rfl, prefRefl _, prefRefl _, ⟨[m], rfl⟩, prefRefl _, prefRefl _, prefRefl _, prefRefl _,
    prefRefl _, prefRefl _, prefRefl _, prefRefl _, prefRefl _, prefRefl _⟩

theorem setAdd_grows {l l2 : List Value} {x : Value} (h : setAdd l x = .ok l2) :
    ∃ u, l2 = l ++ u := by
  unfold setAdd at h
  cases hh : x.hashable with
  | false => rw [hh] at h; exact Except.noConfusion h
  | true =>
    rw [hh] at h
    simp only [if_true] at h
    injection h with h
    cases hc : l.contains x with
    | true =>
      rw [hc] at h
      simp only [if_true] at h
      exact ⟨[], by rw [← h]; exact (List.append_nil l).symm⟩
    | false => rw [hc] at h; simp only [Bool.false_eq_true, if_false] at h; exact ⟨[x], h.symm⟩

theorem extends_set_dc {s : VState} {x : Value} {d : List Value}
    (h : setAdd s.defined_credentials x = .ok d) :
    Extends s { s with defined_credentials := d } :=
  ⟨rfl, prefRefl _, prefRefl _, prefRefl _, setAdd_grows h, prefRefl _, prefRefl _, prefRefl _,
    prefRefl _, prefRefl _, prefRefl _, prefRefl _, prefRefl _, prefRefl _⟩

theorem extends_set_dp {s : VState} {x : Value} {d : List Value}
    (h : setAdd s.defined_projects x = .ok d) :
    Extends s { s with defined_projects := d } :=
  ⟨rfl, prefRefl _, prefRefl _, prefRefl _, prefRefl _, setAdd_grows h, prefRefl _, prefRefl _,
    prefRefl _, prefRefl _, prefRefl _, prefRefl _, prefRefl _, prefRefl _⟩

theorem extends_set_di {s : VState} {x : Value} {d : List Value}
    (h : setAdd s.defined_inventories x = .ok d) :
    Extends s { s with defined_inventories := d } :=
  ⟨rfl, prefRefl _, prefRefl _, prefRefl _, prefRefl _, prefRefl _, setAdd_grows h, prefRefl _,
    prefRefl _, prefRefl _, prefRefl _, prefRefl _, prefRefl _, prefRefl _⟩

theorem extends_set_dees {s : VState} {x : Value} {d : List Value}
    (h : setAdd s.defined_ees x = .ok d) :
    Extends s { s with defined_ees := d } :=
  ⟨rfl, prefRefl _, prefRefl _, prefRefl _, prefRefl _, prefRefl _, prefRefl _, setAdd_grows h,
    prefRefl _, prefRefl _, prefRefl _, prefRefl _, prefRefl _, prefRefl _⟩

theorem extends_set_dorg {s : VState} {x : Value} {d : List Value}
    (h : setAdd s.defined_organizations x = .ok d) :
    Extends s { s with defined_organizations := d } :=
  ⟨rfl, prefRefl _, prefRefl _, prefRefl _, prefRefl _, prefRefl _, prefRefl _, prefRefl _,
    setAdd_grows h, prefRefl _, prefRefl _, prefRefl _, prefRefl _, prefRefl _⟩

theorem extends_set_dteams {s : VState} {x : Value} {d : List Value}
    (h : setAdd s.defined_teams x = .ok d) :
    Extends s { s with defined_teams := d } :=
  ⟨rfl, prefRefl _, prefRefl _, prefRefl _, prefRefl _, prefRefl _, prefRefl _, prefRefl _,
    prefRefl _, setAdd_grows h, prefRefl _, prefRefl _, prefRefl _, prefRefl _⟩

theorem extends_set_rc {s : VState} {x : Value} {d : List Value}
    (h : setAdd s.referenced_credentials x = .ok d) :
    Extends s { s with referenced_credentials := d } :=
  ⟨rfl, prefRefl _, prefRefl _, prefRefl _, prefRefl _, prefRefl _, prefRefl _, prefRefl _,
    prefRefl _, prefRefl _, setAdd_grows h, prefRefl _, prefRefl _, prefRefl _⟩

theorem extends_set_rp {s : VState} {x : Value} {d : List Value}
    (h : setAdd s.referenced_projects x = .ok d) :
    Extends s { s with referenced_projects := d } :=
  ⟨rfl, prefRefl _, prefRefl _, prefRefl _, prefRefl _, prefRefl _, prefRefl _, prefRefl _,
    prefRefl _, prefRefl _, prefRefl _, setAdd_grows h, prefRefl _, prefRefl _⟩

theorem extends_set_ri {s : VState} {x : Value} {d : List Value}
    (h : setAdd s.referenced_inventories x = .ok d) :
    Extends s { s with referenced_inventories := d } :=
  ⟨rfl, prefRefl _, prefRefl _, prefRefl _, prefRefl _, prefRefl _, prefRefl _, prefRefl _,
    prefRefl _, prefRefl _, prefRefl _, prefRefl _, setAdd_grows h, prefRefl _⟩

theorem extends_set_rees {s : VState} {x : Value} {d : List Value}
    (h : setAdd s.referenced_ees x = .ok d) :
    Extends s { s with referenced_ees := d } :=
  ⟨rfl, prefRefl _, prefRefl _, prefRefl _, prefRefl _, prefRefl _, prefRefl _, prefRefl _,
    prefRefl _, prefRefl _, prefRefl _, prefRefl _, prefRefl _, setAdd_grows h⟩

theorem extends_ite {s : VState} (c : Bool) {t1 t2 : VState}
    (h1 : Extends s t1) (h2 : Extends s t2) : Extends s (if c then t1 else t2) := by
  cases c with
  | false => simpa using h2
  | true => simpa using h1

theorem extends_addError_of {s t : VState} (h : Extends s t) (m : String) :
    Extends s (t.addError m) := extends_trans h (extends_addError t m)

theorem extends_addWarning_of {s t : VState} (h : Extends s t) (m : String) :
    Extends s (t.addWarning m) := extends_trans h (extends_addWarning t m)

theorem extends_addInfo_of {s t : VState} (h : Extends s t) (m : String) :
    Extends s (t.addInfo m) := extends_trans h (extends_addInfo t m)

theorem checkSensitive_extends (name inputs : Value) :
    ∀ (fields : List String) (s t : VState),
      checkSensitive name inputs s fields = .ok t → Extends s t := by
  intro fields
  induction fields with
  | nil =>
    intro s t h
    injection h with h
    subst h
    exact extends_refl s
  | cons f fs ih =>
    intro s t h
    rw [checkSensitive] at h
    obtain ⟨present, hp, h⟩ := ebind_ok_iff.1 h
    cases present with
    | false =>
      simp only [Bool.false_eq_true, if_false] at h
      exact ih s t h
    | true =>
      simp only [if_true] at h
      obtain ⟨v, hv, h⟩ := ebind_ok_iff.1 h
      exact extends_trans
        (extends_ite _ (extends_addError s _) (extends_refl s)) (ih _ t h)

theorem foldRecords_extends {f : VState → Value → Except PyExn VState}
    (hf : ∀ s v t, f s v = .ok t → Extends s t) :
    ∀ (recs : List Value) (s t : VState), foldRecords f s recs = .ok t → Extends s t := by
  intro recs
  induction recs with
  | nil =>
    intro s t h
    injection h with h
    subst h
    exact extends_refl s
  | cons v vs ih =>
    intro s t h
    rw [foldRecords] at h
    obtain ⟨s1, h1, h⟩ := ebind_ok_iff.1 h
    exact extends_trans (hf s v s1 h1) (ih s1 t h)

theorem validateOrgRecord_extends (s : VState) (v : Value) (t : VState)
    (h : validateOrgRecord s v = .ok t) : Extends s t := by
  unfold validateOrgRecord at h
  obtain ⟨name, h1, h⟩ := ebind_ok_iff.1 h
  obtain ⟨d, h2, h⟩ := ebind_ok_iff.1 h
  obtain ⟨b1, h3, h⟩ := ebind_ok_iff.1 h
  obtain ⟨b2, h4, h⟩ := ebind_ok_iff.1 h
  injection h with h
  subst h
  exact extends_ite _
    (extends_ite _ (extends_set_dorg h2) (extends_addError_of (extends_set_dorg h2) _))
    (extends_addWarning_of
      (extends_ite _ (extends_set_dorg h2) (extends_addError_of (extends_set_dorg h2) _)) _)

theorem validateTeamRecord_extends (s : VState) (v : Value) (t : VState)
    (h : validateTeamRecord s v = .ok t) : Extends s t := by
  unfold validateTeamRecord at h
  obtain ⟨name, h1, h⟩ := ebind_ok_iff.1 h
  obtain ⟨d, h2, h⟩ := ebind_ok_iff.1 h
  obtain ⟨b1, h3, h⟩ := ebind_ok_iff.1 h
  obtain ⟨b2, h4, h⟩ := ebind_ok_iff.1 h
  obtain ⟨b3, h5, h⟩ := ebind_ok_iff.1 h
  injection h with h
  subst h
  have e1 : Extends s (if b1 then { s with defined_teams := d }
      else VState.addError { s with defined_teams := d } "Team missing 'name' field") :=
    extends_ite _ (extends_set_dteams h2) (extends_addError_of (extends_set_dteams h2) _)
  have e2 := extends_ite b2 e1 (extends_addError_of e1
    ("Team '" ++ name.pyStr ++ "' missing organization reference"))
  exact extends_ite _ e2 (extends_addWarning_of e2 _)

theorem validateCredRecord_extends (s : VState) (v : Value) (t : VState)
    (h : validateCredRecord s v = .ok t) : Extends s t := by
  unfold validateCredRecord at h
  obtain ⟨name, h1, h⟩ := ebind_ok_iff.1 h
  obtain ⟨d, h2, h⟩ := ebind_ok_iff.1 h
  obtain ⟨b1, h3, h⟩ := ebind_ok_iff.1 h
  obtain ⟨b2, h4, h⟩ := ebind_ok_iff.1 h
  obtain ⟨b3, h5, h⟩ := ebind_ok_iff.1 h
  obtain ⟨inputs, h6, h⟩ := ebind_ok_iff.1 h
  have e1 : Extends s (if b1 then { s with defined_credentials := d }
      else VState.addError { s with defined_credentials := d } "Credential missing 'name' field") :=
    extends_ite _ (extends_set_dc h2) (extends_addError_of (extends_set_dc h2) _)
  have e2 := extends_ite b2 e1 (extends_addError_of e1
    ("Credential '" ++ name.pyStr ++ "' missing credential_type"))
  have e3 := extends_ite b3 e2 (extends_addError_of e2
    ("Credential '" ++ name.pyStr ++ "' missing organization"))
  exact extends_trans e3 (checkSensitive_extends name inputs sensitive_fields _ t h)

theorem validateEERecord_extends (s : VState) (v : Value) (t : VState)
    (h : validateEERecord s v = .ok t) : Extends s t := by
  unfold validateEERecord at h
  obtain ⟨name, h1, h⟩ := ebind_ok_iff.1 h
  obtain ⟨d, h2, h⟩ := ebind_ok_iff.1 h
  obtain ⟨b1, h3, h⟩ := ebind_ok_iff.1 h
  obtain ⟨b2, h4, h⟩ := ebind_ok_iff.1 h
  have e1 : Extends s (if b1 then { s with defined_ees := d }
      else VState.addError { s with defined_ees := d }
        "Execution Environment missing 'name' field") :=
    extends_ite _ (extends_set_dees h2) (extends_addError_of (extends_set_dees h2) _)
  cases b2 with
  | false =>
    simp only [Bool.not_false, if_true] at h
    injection h with h
    subst h
    exact extends_addError_of e1 _
  | true =>
    simp only [Bool.not_true, Bool.false_eq_true, if_false] at h
    obtain ⟨image, h5, h⟩ := ebind_ok_iff.1 h
    obtain ⟨b3, h6, h⟩ := ebind_ok_iff.1 h
    obtain ⟨b4, h7, h⟩ := ebind_ok_iff.1 h
    injection h with h
    subst h
    have e2 := extends_ite (!b3 && ((if b1 then { s with defined_ees := d }
        else VState.addError { s with defined_ees := d }
          "Execution Environment missing 'name' field").environment == some "prod"))
      (extends_addWarning_of e1 (eeDigestMsg name.pyStr)) e1
    exact extends_ite _ (extends_addError_of e2 _) e2

theorem validateProjectRecord_extends (s : VState) (v : Value) (t : VState)
    (h : validateProjectRecord s v = .ok t) : Extends s t := by
  unfold validateProjectRecord at h
  obtain ⟨name, h1, h⟩ := ebind_ok_iff.1 h
  obtain ⟨d, h2, h⟩ := ebind_ok_iff.1 h
  obtain ⟨b1, h3, h⟩ := ebind_ok_iff.1 h
  obtain ⟨b2, h4, h⟩ := ebind_ok_iff.1 h
  obtain ⟨s2, h5, h⟩ := ebind_ok_iff.1 h
  have e1 : Extends s (if b1 then { s with defined_projects := d }
      else VState.addError { s with defined_projects := d } "Project missing 'name' field") :=
    extends_ite _ (extends_set_dp h2) (extends_addError_of (extends_set_dp h2) _)
  have e2 : Extends s s2 := by
    cases b2 with
    | false =>
      simp only [Bool.not_false, if_true] at h5
      injection h5 with h5
      subst h5
      exact extends_addError_of e1 _
    | true =>
      simp only [Bool.not_true, Bool.false_eq_true, if_false] at h5
      obtain ⟨st, h6, h5⟩ := ebind_ok_iff.1 h5
      injection h5 with h5
      subst h5
      exact extends_ite _ e1 (extends_addWarning_of e1 _)
  obtain ⟨b3, h6, h⟩ := ebind_ok_iff.1 h
  obtain ⟨b4, h7, h⟩ := ebind_ok_iff.1 h
  obtain ⟨b5, h8, h⟩ := ebind_ok_iff.1 h
  obtain ⟨s3, h9, h⟩ := ebind_ok_iff.1 h
  have e3 : Extends s2 s3 := by
    have e2a : Extends s2 (if b3 then s2
        else s2.addError ("Project '" ++ name.pyStr ++ "' missing scm_url")) :=
      extends_ite _ (extends_refl s2) (extends_addError s2 _)
    have e2b := extends_ite b4 e2a (extends_addWarning_of e2a
      ("Project '" ++ name.pyStr ++ "' not specifying branch - will use repository default"))
    cases b5 with
    | false =>
      simp only [Bool.false_eq_true, if_false] at h9
      injection h9 with h9
      subst h9
      exact e2b
    | true =>
      simp only [if_true] at h9
      obtain ⟨cv, h10, h9⟩ := ebind_ok_iff.1 h9
      obtain ⟨r, h11, h9⟩ := ebind_ok_iff.1 h9
      injection h9 with h9
      subst h9
      exact extends_trans e2b (extends_set_rc h11)
  obtain ⟨b6, h10, h⟩ := ebind_ok_iff.1 h
  obtain ⟨s4, h11, h⟩ := ebind_ok_iff.1 h
  have e4 : Extends s3 s4 := by
    cases b6 with
    | false =>
      simp only [Bool.false_eq_true, if_false] at h11
      injection h11 with h11
      subst h11
      exact extends_refl s3
    | true =>
      simp only [if_true] at h11
      obtain ⟨dv, h12, h11⟩ := ebind_ok_iff.1 h11
      obtain ⟨r, h13, h11⟩ := ebind_ok_iff.1 h11
      injection h11 with h11
      subst h11
      exact extends_set_rees h13
  injection h with h
  subst h
  exact extends_trans e2 (extends_trans e3 e4)

theorem validateInvRecord_extends (s : VState) (v : Value) (t : VState)
    (h : validateInvRecord s v = .ok t) : Extends s t := by
  unfold validateInvRecord at h
  obtain ⟨name, h1, h⟩ := ebind_ok_iff.1 h
  obtain ⟨d, h2, h⟩ := ebind_ok_iff.1 h
  obtain ⟨b1, h3, h⟩ := ebind_ok_iff.1 h
  obtain ⟨b2, h4, h⟩ := ebind_ok_iff.1 h
  injection h with h
  subst h
  have e1 : Extends s (if b1 then { s with defined_inventories := d }
      else VState.addError { s with defined_inventories := d } "Inventory missing 'name' field") :=
    extends_ite _ (extends_set_di h2) (extends_addError_of (extends_set_di h2) _)
  exact extends_ite _ e1 (extends_addError_of e1 _)

theorem addCredRef_extends (s : VState) (c : Value) (t : VState)
    (h : addCredRef s c = .ok t) : Extends s t := by
  cases c with
  | str a =>
    unfold addCredRef at h
    obtain ⟨r, h1, h⟩ := ebind_ok_iff.1 h
    injection h with h
    subst h
    exact extends_set_rc h1
  | dict kvs =>
    have h2 : (match kvs.lookup "name" with
        | some w => ebind (setAdd s.referenced_credentials w) fun r =>
            Except.ok { s with referenced_credentials := r }
        | none => Except.ok s) = Except.ok t := h
    cases hl : kvs.lookup "name" with
    | none =>
      rw [hl] at h2
      injection h2 with h2
      subst h2
      exact extends_refl s
    | some w =>
      rw [hl] at h2
      obtain ⟨r, h1, h2⟩ := ebind_ok_iff.1 h2
      injection h2 with h2
      subst h2
      exact extends_set_rc h1
  | int n => unfold addCredRef at h; injection h with h; subst h; exact extends_refl s
  | bool b => unfold addCredRef at h; injection h with h; subst h; exact extends_refl s
  | null => unfold addCredRef at h; injection h with h; subst h; exact extends_refl s
  | list vs => unfold addCredRef at h; injection h with h; subst h; exact extends_refl s

theorem jtProdChecks_extends (s : VState) (tpl name : Value) (t : VState)
    (h : jtProdChecks s tpl name = .ok t) : Extends s t := by
  unfold jtProdChecks at h
  cases hb : s.environment == some "prod" with
  | false =>
    rw [hb] at h
    rw [if_neg (by simp)] at h
    injection h with h
    subst h
    exact extends_refl s
  | true =>
    rw [hb] at h
    rw [if_pos rfl] at h
    obtain ⟨av, h1, h⟩ := ebind_ok_iff.1 h
    obtain ⟨fc, h2, h⟩ := ebind_ok_iff.1 h
    injection h with h
    subst h
    have e1 := extends_ite av.truthy (extends_addWarning s (jtPromptsMsg name.pyStr))
      (extends_refl s)
    exact extends_ite _ (extends_addWarning_of e1 _) e1

theorem validateJTRecord_extends (s : VState) (v : Value) (t : VState)
    (h : validateJTRecord s v = .ok t) : Extends s t := by
  unfold validateJTRecord at h
  obtain ⟨name, h1, h⟩ := ebind_ok_iff.1 h
  obtain ⟨b1, h2, h⟩ := ebind_ok_iff.1 h
  obtain ⟨b2, h3, h⟩ := ebind_ok_iff.1 h
  obtain ⟨s2, h4, h⟩ := ebind_ok_iff.1 h
  have e1 : Extends s (if b1 then s
      else s.addError "Job Template missing 'name' field") :=
    extends_ite _ (extends_refl s) (extends_addError s _)
  have e2 : Extends s s2 := by
    cases b2 with
    | false =>
      simp only [Bool.false_eq_true, if_false] at h4
      injection h4 with h4
      subst h4
      exact extends_addError_of e1 _
    | true =>
      simp only [if_true] at h4
      obtain ⟨pv, h5, h4⟩ := ebind_ok_iff.1 h4
      obtain ⟨r, h6, h4⟩ := ebind_ok_iff.1 h4
      injection h4 with h4
      subst h4
      exact extends_trans e1 (extends_set_rp h6)
  obtain ⟨b3, h5, h⟩ := ebind_ok_iff.1 h
  obtain ⟨s3, h6, h⟩ := ebind_ok_iff.1 h
  have e3 : Extends s2 s3 := by
    cases b3 with
    | false =>
      simp only [Bool.false_eq_true, if_false] at h6
      injection h6 with h6
      subst h6
      exact extends_addError s2 _
    | true =>
      simp only [if_true] at h6
      obtain ⟨iv, h7, h6⟩ := ebind_ok_iff.1 h6
      obtain ⟨r, h8, h6⟩ := ebind_ok_iff.1 h6
      injection h6 with h6
      subst h6
      exact extends_set_ri h8
  obtain ⟨b4, h7, h⟩ := ebind_ok_iff.1 h
  obtain ⟨b5, h8, h⟩ := ebind_ok_iff.1 h
  obtain ⟨s4, h9, h⟩ := ebind_ok_iff.1 h
  have e4 : Extends s3 s4 := by
    have e3a : Extends s3 (if b4 then s3
        else s3.addError (jtMissingMsg name.pyStr "playbook")) :=
      extends_ite _ (extends_refl s3) (extends_addError s3 _)
    cases b5 with
    | false =>
      simp only [Bool.false_eq_true, if_false] at h9
      injection h9 with h9
      subst h9
      exact e3a
    | true =>
      simp only [if_true] at h9
      obtain ⟨cv, h10, h9⟩ := ebind_ok_iff.1 h9
      obtain ⟨cl, h11, h9⟩ := ebind_ok_iff.1 h9
      exact extends_trans e3a (foldRecords_extends addCredRef_extends cl _ s4 h9)
  obtain ⟨b6, h10, h⟩ := ebind_ok_iff.1 h
  obtain ⟨s5, h11, h⟩ := ebind_ok_iff.1 h
  have e5 : Extends s4 s5 := by
    cases b6 with
    | false =>
      simp only [Bool.false_eq_true, if_false] at h11
      injection h11 with h11
      subst h11
      exact extends_refl s4
    | true =>
      simp only [if_true] at h11
      obtain ⟨ev, h12, h11⟩ := ebind_ok_iff.1 h11
      obtain ⟨r, h13, h11⟩ := ebind_ok_iff.1 h11
      injection h11 with h11
      subst h11
      exact extends_set_rees h13
  exact extends_trans e2 (extends_trans e3 (extends_trans e4
    (extends_trans e5 (jtProdChecks_extends s5 v name t h))))

theorem validateWFRecord_extends (s : VState) (v : Value) (t : VState)
    (h : validateWFRecord s v = .ok t) : Extends s t := by
  unfold validateWFRecord at h
  obtain ⟨name, h1, h⟩ := ebind_ok_iff.1 h
  obtain ⟨b1, h2, h⟩ := ebind_ok_iff.1 h
  obtain ⟨b2, h3, h⟩ := ebind_ok_iff.1 h
  obtain ⟨b3, h4, h⟩ := ebind_ok_iff.1 h
  injection h with h
  subst h
  have e1 : Extends s (if b1 then s
      else s.addError "Workflow Template missing 'name' field") :=
    extends_ite _ (extends_refl s) (extends_addError s _)
  exact extends_ite _ (extends_addWarning_of e1 _) e1

theorem validateSchedRecord_extends (s : VState) (v : Value) (t : VState)
    (h : validateSchedRecord s v = .ok t) : Extends s t := by
  unfold validateSchedRecord at h
  obtain ⟨name, h1, h⟩ := ebind_ok_iff.1 h
  obtain ⟨b1, h2, h⟩ := ebind_ok_iff.1 h
  obtain ⟨b2, h3, h⟩ := ebind_ok_iff.1 h
  obtain ⟨b3, h4, h⟩ := ebind_ok_iff.1 h
  obtain ⟨en, h5, h⟩ := ebind_ok_iff.1 h
  injection h with h
  subst h
  have e1 : Extends s (if b1 then s else s.addError "Schedule missing 'name' field") :=
    extends_ite _ (extends_refl s) (extends_addError s _)
  have e2 := extends_ite b2 e1 (extends_addError_of e1
    ("Schedule '" ++ name.pyStr ++ "' missing rrule"))
  have e3 := extends_ite b3 e2 (extends_addError_of e2
    ("Schedule '" ++ name.pyStr ++ "' missing unified_job_template"))
  exact extends_ite _ (extends_addInfo_of e3 _) e3

theorem validate_organizations_extends (s : VState) (c : Value) (t : VState)
    (h : validate_organizations s c = .ok t) : Extends s t := by
  unfold validate_organizations at h
  obtain ⟨orgs, h1, h⟩ := ebind_ok_iff.1 h
  cases htr : orgs.truthy with
  | false =>
    rw [htr] at h
    rw [if_pos (show (!false) = true from rfl)] at h
    injection h with h
    subst h
    exact extends_addWarning s _
  | true =>
    rw [htr] at h
    rw [if_neg (by simp)] at h
    obtain ⟨lst, h2, h⟩ := ebind_ok_iff.1 h
    obtain ⟨s2, h3, h⟩ := ebind_ok_iff.1 h
    obtain ⟨n, h4, h⟩ := ebind_ok_iff.1 h
    injection h with h
    subst h
    exact extends_addInfo_of (foldRecords_extends validateOrgRecord_extends lst s s2 h3) _

theorem validate_teams_extends (s : VState) (c : Value) (t : VState)
    (h : validate_teams s c = .ok t) : Extends s t := by
  unfold validate_teams at h
  obtain ⟨teams, h1, h⟩ := ebind_ok_iff.1 h
  cases htr : teams.truthy with
  | false =>
    rw [htr] at h
    rw [if_pos (show (!false) = true from rfl)] at h
    injection h with h
    subst h
    exact extends_addWarning s _
  | true =>
    rw [htr] at h
    rw [if_neg (by simp)] at h
    obtain ⟨lst, h2, h⟩ := ebind_ok_iff.1 h
    obtain ⟨s2, h3, h⟩ := ebind_ok_iff.1 h
    obtain ⟨n, h4, h⟩ := ebind_ok_iff.1 h
    injection h with h
    subst h
    exact extends_addInfo_of (foldRecords_extends validateTeamRecord_extends lst s s2 h3) _

theorem validate_credentials_extends (s : VState) (c : Value) (t : VState)
    (h : validate_credentials s c = .ok t) : Extends s t := by
  unfold validate_credentials at h
  obtain ⟨credentials, h1, h⟩ := ebind_ok_iff.1 h
  obtain ⟨lst, h2, h⟩ := ebind_ok_iff.1 h
  obtain ⟨s2, h3, h⟩ := ebind_ok_iff.1 h
  obtain ⟨n, h4, h⟩ := ebind_ok_iff.1 h
  injection h with h
  subst h
  exact extends_addInfo_of (foldRecords_extends validateCredRecord_extends lst s s2 h3) _

theorem validate_execution_environments_extends (s : VState) (c : Value) (t : VState)
    (h : validate_execution_environments s c = .ok t) : Extends s t := by
  unfold validate_execution_environments at h
  obtain ⟨ees, h1, h⟩ := ebind_ok_iff.1 h
  obtain ⟨lst, h2, h⟩ := ebind_ok_iff.1 h
  obtain ⟨s2, h3, h⟩ := ebind_ok_iff.1 h
  obtain ⟨n, h4, h⟩ := ebind_ok_iff.1 h
  injection h with h
  subst h
  exact extends_addInfo_of (foldRecords_extends validateEERecord_extends lst s s2 h3) _

theorem validate_projects_extends (s : VState) (c : Value) (t : VState)
    (h : validate_projects s c = .ok t) : Extends s t := by
  unfold validate_projects at h
  obtain ⟨projects, h1, h⟩ := ebind_ok_iff.1 h
  obtain ⟨lst, h2, h⟩ := ebind_ok_iff.1 h
  obtain ⟨s2, h3, h⟩ := ebind_ok_iff.1 h
  obtain ⟨n, h4, h⟩ := ebind_ok_iff.1 h
  injection h with h
  subst h
  exact extends_addInfo_of (foldRecords_extends validateProjectRecord_extends lst s s2 h3) _

theorem validate_inventories_extends (s : VState) (c : Value) (t : VState)
    (h : validate_inventories s c = .ok t) : Extends s t := by
  unfold validate_inventories at h
  obtain ⟨inventories, h1, h⟩ := ebind_ok_iff.1 h
  obtain ⟨lst, h2, h⟩ := ebind_ok_iff.1 h
  obtain ⟨s2, h3, h⟩ := ebind_ok_iff.1 h
  obtain ⟨n, h4, h⟩ := ebind_ok_iff.1 h
  injection h with h
  subst h
  exact extends_addInfo_of (foldRecords_extends validateInvRecord_extends lst s s2 h3) _

theorem validate_job_templates_extends (s : VState) (c : Value) (t : VState)
    (h : validate_job_templates s c = .ok t) : Extends s t := by
  unfold validate_job_templates at h
  obtain ⟨templates, h1, h⟩ := ebind_ok_iff.1 h
  obtain ⟨lst, h2, h⟩ := ebind_ok_iff.1 h
  obtain ⟨s2, h3, h⟩ := ebind_ok_iff.1 h
  obtain ⟨n, h4, h⟩ := ebind_ok_iff.1 h
  injection h with h
  subst h
  exact extends_addInfo_of (foldRecords_extends validateJTRecord_extends lst s s2 h3) _

theorem validate_workflow_templates_extends (s : VState) (c : Value) (t : VState)
    (h : validate_workflow_templates s c = .ok t) : Extends s t := by
  unfold validate_workflow_templates at h
  obtain ⟨workflows, h1, h⟩ := ebind_ok_iff.1 h
  obtain ⟨lst, h2, h⟩ := ebind_ok_iff.1 h
  obtain ⟨s2, h3, h⟩ := ebind_ok_iff.1 h
  obtain ⟨n, h4, h⟩ := ebind_ok_iff.1 h
  injection h with h
  subst h
  exact extends_addInfo_of (foldRecords_extends validateWFRecord_extends lst s s2 h3) _

theorem validate_schedules_extends (s : VState) (c : Value) (t : VState)
    (h : validate_schedules s c = .ok t) : Extends s t := by
  unfold validate_schedules at h
  obtain ⟨schedules, h1, h⟩ := ebind_ok_iff.1 h
  obtain ⟨lst, h2, h⟩ := ebind_ok_iff.1 h
  obtain ⟨s2, h3, h⟩ := ebind_ok_iff.1 h
  obtain ⟨n, h4, h⟩ := ebind_ok_iff.1 h
  injection h with h
  subst h
  exact extends_addInfo_of (foldRecords_extends validateSchedRecord_extends lst s s2 h3) _

theorem load_yaml_file_extends (s : VState) (p : String) (fc : FileContent) :
    Extends s (load_yaml_file s p fc).1 := by
  cases fc with
  | missing => exact extends_addWarning s _
  | parseError e => exact extends_addError s _
  | doc v => exact extends_refl s

theorem validate_references_extends (s : VState) : Extends s (validate_references s) :=
  ⟨rfl, prefRefl _,
    ⟨refWarnings "credential" s.referenced_credentials s.defined_credentials ++
      (refWarnings "project" s.referenced_projects s.defined_projects ++
      (refWarnings "inventory" s.referenced_inventories s.defined_inventories ++
        refWarnings "execution environment" s.referenced_ees s.defined_ees)),
      by simp [validate_references, List.append_assoc]⟩,
    prefRefl _, prefRefl _, prefRefl _, prefRefl _, prefRefl _, prefRefl _, prefRefl _,
    prefRefl _, prefRefl _, prefRefl _, prefRefl _⟩

/-- C10: every operation on the validator state — loading a file, each of
the nine per-kind validators, and reference reconciliation — only appends
to the finding lists and only adds names at the end of the defined and
referenced sets; no previously recorded finding or collected name is
removed, reordered or modified, and the environment never changes. -/
theorem c10_append_only :
    (∀ (s : VState) (p : String) (fc : FileContent), Extends s (load_yaml_file s p fc).1) ∧
    (∀ (s : VState) (c : Value) (t : VState),
      validate_organizations s c = .ok t → Extends s t) ∧
    (∀ (s : VState) (c : Value) (t : VState),
      validate_teams s c = .ok t → Extends s t) ∧
    (∀ (s : VState) (c : Value) (t : VState),
      validate_credentials s c = .ok t → Extends s t) ∧
    (∀ (s : VState) (c : Value) (t : VState),
      validate_execution_environments s c = .ok t → Extends s t) ∧
    (∀ (s : VState) (c : Value) (t : VState),
      validate_projects s c = .ok t → Extends s t) ∧
    (∀ (s : VState) (c : Value) (t : VState),
      validate_inventories s c = .ok t → Extends s t) ∧
    (∀ (s : VState) (c : Value) (t : VState),
      validate_job_templates s c = .ok t → Extends s t) ∧
    (∀ (s : VState) (c : Value) (t : VState),
      validate_workflow_templates s c = .ok t → Extends s t) ∧
    (∀ (s : VState) (c : Value) (t : VState),
      validate_schedules s c = .ok t → Extends s t) ∧
    (∀ s : VState, Extends s (validate_references s)) :=
  ⟨load_yaml_file_extends, validate_organizations_extends, validate_teams_extends,
    validate_credentials_extends, validate_execution_environments_extends,
    validate_projects_extends, validate_inventories_extends,
    validate_job_templates_extends, validate_workflow_templates_extends,
    validate_schedules_extends, validate_references_extends⟩

/-- Witness for C10 at a concrete organizations run whose success hypothesis
holds by computation. -/
theorem c10_append_only_witness :
    Extends (VState.init none) ((VState.init none).addWarning "No organizations defined") :=
  c10_append_only.2.1 (VState.init none) orgEmptyCfg
    ((VState.init none).addWarning "No organizations defined") rfl

/-- Witness for C3 at a concrete state with one dangling referenced
credential. -/
theorem c3_dangling_reference_warnings_witness :
    (((validate_references
        (VState.mk none [] [] [] [] [] [] [] [] [] [Value.str "a"] [] [] [])).warnings.drop
      (VState.mk none [] [] [] [] [] [] [] [] [] [Value.str "a"] [] [] []).warnings.length).count
      (refWarn "credential" (Value.str "a")) = 1) :=
  ((c3_dangling_reference_warnings
    (VState.mk none [] [] [] [] [] [] [] [] [] [Value.str "a"] [] [] [])
    rfl rfl rfl rfl rfl rfl rfl rfl "a").1).1 rfl rfl

/-- Witness for C5's amended theorem at a concrete well-shaped credentials
document. -/
theorem c5_amended_wellshaped_no_raise_witness :
    ∃ t, validate_credentials (VState.init none)
      (.dict [("controller_credentials",
        Value.list [Value.dict [("name", Value.str "c")]])]) = .ok t :=
  c5_amended_wellshaped_no_raise.1 none [Value.dict [("name", Value.str "c")]] rfl

/-- Witness for C6's amended theorem at a concrete nameless record. -/
theorem c6_amended_unnamed_added_witness :
    ∃ t, validate_organizations (VState.init none)
        (.dict [("controller_organizations",
          Value.list [Value.dict [("description", Value.str "d")]])]) = .ok t ∧
      "Organization missing 'name' field" ∈ t.errors ∧
      t.defined_organizations.contains (Value.str "unnamed") = true :=
  c6_amended_unnamed_added none [("description", Value.str "d")] rfl

/-- Witness for C7's amended theorem at the credentials file with zero
records. -/
theorem c7_amended_zero_count_witness :
    (stateOf (validate_environment (VState.init none)
      (oneFileDir "credentials.yml"
        (.doc (Value.dict [("controller_credentials", Value.list [])]))))).errors = [] ∧
    (stateOf (validate_environment (VState.init none)
      (oneFileDir "credentials.yml"
        (.doc (Value.dict [("controller_credentials", Value.list [])]))))).warnings = [] ∧
    (stateOf (validate_environment (VState.init none)
      (oneFileDir "credentials.yml"
        (.doc (Value.dict [("controller_credentials", Value.list [])]))))).info =
      ["Found 0 credential(s)"] :=
  c7_amended_zero_count.2.2.1 ("credentials.yml", "controller_credentials",
    "Found 0 credential(s)") (by decide)
